import Mathlib

/-!
Verification development for the CarapaceOS host-side VM lifecycle engine.

The definitions below are a shallow embedding of the JavaScript sources:

* `lib/warm-pool.js`   — the `WarmPool` class (slot registry, waiter queue,
  refill loop, acquire/release/stop), modelled as an explicit state machine
  whose events are the atomic segments of the async methods (the code between
  two `await` suspension points runs atomically on the Node event loop);
* `lib/agent-runner.js` — the `CarapaceRunner` class (port allocation,
  `sshExec`, `run`, `shutdown`);
* `lib/control-server.js` — body parsing, error-to-status mapping and the
  `/pool/resize` handler;
* `lib/seed-iso.js`    — the hand-rolled ISO 9660 builder (`buildISO`) and
  the cloud-init seed assembly (`createSeedISO`).

Machine integers do not overflow in any modelled quantity (counters, sizes,
byte values), so numbers are embedded as `Nat` / `Int`.  Node `Buffer`s are
embedded as `List Nat` of byte values; `Buffer.copy` / `Buffer.write` become
the `blit` operation defined in the `SeedISO` namespace.
-/

namespace Carapace

/-! ## Warm pool (`lib/warm-pool.js`) -/

namespace WarmPool

/-- Pool states for each slot (`SlotState` in the source). -/
inductive SlotState where
  | booting
  | warm
  | active
  | dead
deriving DecidableEq, Repr

/-- A single pool slot — tracks one VM's lifecycle (`class PoolSlot`).
The `runner` field holds the identity of the `CarapaceRunner` object stored
in the slot; each `_bootSlot` call constructs a fresh runner, modelled by
drawing from the pool-state's `runnerCounter`. -/
structure Slot where
  id : Nat
  state : SlotState
  runner : Nat
  createdAt : Nat
  warmAt : Option Nat
  acquiredAt : Option Nat
deriving DecidableEq, Repr

/-- Constructor options of `WarmPool` (subset that affects the modelled
state; `image`, `memory` and `verbose` do not influence the slot machine). -/
structure PoolOpts where
  size : Option Int
  maxSize : Option Int
  maxWarmAgeMs : Option Nat
deriving DecidableEq, Repr

/-- `DEFAULT_POOL_SIZE` from the source. -/
def DEFAULT_POOL_SIZE : Int := 2

/-- `DEFAULT_MAX_SIZE` from the source (hard cap on concurrent VMs). -/
def DEFAULT_MAX_SIZE : Int := 8

/-- The mutable state of one `WarmPool` instance.  `slots` is the `Map` of
live slots in insertion order (a JavaScript `Map` iterates in insertion
order); `waiters` is the FIFO array of blocked `acquire` callers, identified
by an opaque number; `emitted` and `served` are observation logs: `emitted`
records, in order, every runner returned by `_checkout` (i.e. returned from
some `acquire`), and `served` records each waiter resolution performed by
`_serveWaiters` as a `(waiter, runner)` pair. -/
structure PoolState where
  targetSize : Int
  maxSize : Int
  maxWarmAgeMs : Nat
  slots : List Slot
  slotCounter : Nat
  runnerCounter : Nat
  started : Bool
  stopping : Bool
  waiters : List Nat
  emitted : List Nat
  served : List (Nat × Nat)
deriving DecidableEq, Repr

/-- The `WarmPool` constructor: `targetSize = Math.max(1, opts.size ?? 2)`,
`maxSize = Math.max(targetSize, opts.maxSize ?? 8)`,
`maxWarmAgeMs = opts.maxWarmAgeMs ?? null` (0 encodes JavaScript `null`,
which like `0` is falsy in the staleness test). -/
def new (opts : PoolOpts) : PoolState :=
  let target := max 1 (opts.size.getD DEFAULT_POOL_SIZE)
  { targetSize := target
    maxSize := max target (opts.maxSize.getD DEFAULT_MAX_SIZE)
    maxWarmAgeMs := opts.maxWarmAgeMs.getD 0
    slots := []
    slotCounter := 0
    runnerCounter := 0
    started := false
    stopping := false
    waiters := []
    emitted := []
    served := [] }

/-- The record returned by `stats()`. -/
structure Stats where
  warm : Nat
  booting : Nat
  active : Nat
  total : Nat
  waiters : Nat
  targetSize : Int
  maxSize : Int
deriving DecidableEq, Repr

/-- `stats()` — counts slots by state; `total` counts the non-dead slots. -/
def stats (s : PoolState) : Stats :=
  { warm := (s.slots.filter (fun sl => sl.state = SlotState.warm)).length
    booting := (s.slots.filter (fun sl => sl.state = SlotState.booting)).length
    active := (s.slots.filter (fun sl => sl.state = SlotState.active)).length
    total := (s.slots.filter (fun sl => sl.state ≠ SlotState.dead)).length
    waiters := s.waiters.length
    targetSize := s.targetSize
    maxSize := s.maxSize }

/-- The staleness test in `_findWarmSlot`:
`this.maxWarmAgeMs && slot.warmAge > this.maxWarmAgeMs`
(`maxWarmAgeMs = 0` encodes `null` and is falsy). -/
def isStale (maxAge now : Nat) (sl : Slot) : Bool :=
  maxAge ≠ 0 && now - sl.warmAt.getD now > maxAge

/-- The loop body of `_findWarmSlot`: walk the registry in insertion order,
evict stale warm slots (mark dead and delete from the registry, as
`_evictStale` does) and track the oldest remaining warm slot by `warmAt`.
Returns the surviving registry together with the selected slot. -/
def findWarmLoop (maxAge now : Nat) : List Slot → Option Slot → List Slot × Option Slot
  | [], best => ([], best)
  | sl :: rest, best =>
    if sl.state = SlotState.warm then
      if isStale maxAge now sl then
        findWarmLoop maxAge now rest best
      else
        let best' := match best with
          | none => some sl
          | some o => if sl.warmAt.getD 0 < o.warmAt.getD 0 then some sl else some o
        let r := findWarmLoop maxAge now rest best'
        (sl :: r.1, r.2)
    else
      let r := findWarmLoop maxAge now rest best
      (sl :: r.1, r.2)

/-- `_findWarmSlot()` — also applies the stale evictions it performs. -/
def findWarmSlot (s : PoolState) (now : Nat) : PoolState × Option Slot :=
  let r := findWarmLoop s.maxWarmAgeMs now s.slots none
  ({ s with slots := r.1 }, r.2)

/-- The slot mutation performed by `_checkout`: `slot.state = ACTIVE;
slot.acquiredAt = Date.now()`. -/
def setActive (now sid : Nat) (l : List Slot) : List Slot :=
  l.map fun sl =>
    if sl.id = sid then { sl with state := SlotState.active, acquiredAt := some now } else sl

/-- `_checkout(slot)` — transition the slot to active and return its runner
(recorded in the `emitted` log). -/
def checkout (s : PoolState) (sl : Slot) (now : Nat) : PoolState :=
  { s with slots := setActive now sl.id s.slots
           emitted := s.emitted ++ [sl.runner] }

/-- `acquire()` up to its first suspension point: throws when the pool is not
started or stopping (modelled as returning no runner), otherwise grabs the
oldest warm slot via `_findWarmSlot` or enqueues a waiter `wid`. -/
def acquire (s : PoolState) (wid now : Nat) : PoolState × Option Nat :=
  if !s.started then (s, none)
  else if s.stopping then (s, none)
  else
    let r := findWarmSlot s now
    match r.2 with
    | some sl => (checkout r.1 sl now, some sl.runner)
    | none => ({ r.1 with waiters := r.1.waiters ++ [wid] }, none)

/-- The waiter-removal done by the `acquire` timeout callback:
`indexOf` followed by `splice(idx, 1)`. -/
def removeWaiter (ws : List Nat) (wid : Nat) : List Nat :=
  match ws.findIdx? (fun w => w = wid) with
  | none => ws
  | some i => ws.take i ++ ws.drop (i + 1)

/-- `release(runner)` — locate the owning slot by runner identity
(`_findSlotByRunner`), mark it dead and delete it from the registry;
an unknown runner is only shut down. -/
def release (s : PoolState) (rid : Nat) : PoolState :=
  match s.slots.find? (fun sl => sl.runner = rid) with
  | none => s
  | some sl => { s with slots := s.slots.filter (fun x => x.id ≠ sl.id) }

/-- `stop()` — idempotent: a second call returns at once.  Rejects all
pending waiters, marks every slot dead and clears the registry.  The source
awaits the parallel shutdowns between marking and clearing; that window is
merged into one atomic step here, which is sound for the proved properties:
in the window every slot is dead and `stopping` is set, so no event can warm
a slot, check one out, or register a new one, and `stats` ignores dead
slots. -/
def stop (s : PoolState) : PoolState :=
  if s.stopping then s
  else { s with stopping := true, waiters := [], slots := [], started := false }

/-- The fresh `PoolSlot`s registered by one `_refill`: `_bootSlot` increments
`_slotCounter` (ids are `slot-${++counter}`) and constructs a fresh
`CarapaceRunner` for each slot. -/
def mkSlots (now slotC runnerC k : Nat) : List Slot :=
  (List.range k).map fun i =>
    { id := slotC + i + 1
      state := SlotState.booting
      runner := runnerC + i
      createdAt := now
      warmAt := none
      acquiredAt := none }

/-- `_refill()` — start `min(targetSize − warm − booting, maxSize − total)`
boots; each `_bootSlot()` synchronously registers its slot before the first
`await`, so the new slots appear atomically. -/
def refill (s : PoolState) (now : Nat) : PoolState :=
  if s.stopping then s
  else
    let st := stats s
    let needed : Int := s.targetSize - st.warm - st.booting
    let canBoot : Int := s.maxSize - st.total
    let toStart := min needed canBoot
    if toStart ≤ 0 then s
    else
      let k := toStart.toNat
      { s with slots := s.slots ++ mkSlots now s.slotCounter s.runnerCounter k
               slotCounter := s.slotCounter + k
               runnerCounter := s.runnerCounter + k }

/-- `start()` — marks the pool started and performs the initial refill
(the subsequent `_waitForFirstWarm` only observes the state). -/
def start (s : PoolState) (now : Nat) : PoolState :=
  if s.started then s
  else refill { s with started := true, stopping := false } now

/-- The slot mutation in the success branch of `_bootSlot`:
`slot.state = WARM; slot.warmAt = Date.now()`. -/
def setWarm (now sid : Nat) (l : List Slot) : List Slot :=
  l.map fun sl =>
    if sl.id = sid then { sl with state := SlotState.warm, warmAt := some now } else sl

/-- The loop of `_serveWaiters`: while waiters remain and `_findWarmSlot`
finds a slot, shift the first waiter, check the slot out and resolve the
waiter with its runner.  `ws` is the waiter queue being drained; the final
queue is written back to the state. -/
def serveGo (now : Nat) : List Nat → PoolState → PoolState
  | [], s => { s with waiters := [] }
  | w :: rest, s =>
    let r := findWarmSlot s now
    match r.2 with
    | none => { r.1 with waiters := w :: rest }
    | some sl =>
      serveGo now rest
        { checkout r.1 sl now with
          waiters := r.1.waiters
          served := r.1.served ++ [(w, sl.runner)] }

/-- `_serveWaiters()`. -/
def serveWaiters (s : PoolState) (now : Nat) : PoolState :=
  serveGo now s.waiters s

/-- Completion of `runner.boot()` for slot `sid` (the code after the `await`
in `_bootSlot`): when the pool is stopping the slot is discarded, otherwise
it warms up and the waiters are served.  If the slot is no longer a booting
slot of the registry (the pool was stopped and restarted meanwhile) nothing
observable happens. -/
def bootSuccess (s : PoolState) (sid now : Nat) : PoolState :=
  if s.slots.any (fun sl => sl.id = sid && sl.state = SlotState.booting) then
    if s.stopping then
      { s with slots := s.slots.filter (fun sl => sl.id ≠ sid) }
    else
      serveWaiters { s with slots := setWarm now sid s.slots } now
  else s

/-- Failure of `runner.boot()` for slot `sid`: the slot is marked dead,
its error recorded, and it is deleted from the registry (the 5 s retry
schedules a later `_refill`, a separate event). -/
def bootFail (s : PoolState) (sid : Nat) : PoolState :=
  if s.slots.any (fun sl => sl.id = sid && sl.state = SlotState.booting) then
    { s with slots := s.slots.filter (fun sl => sl.id ≠ sid) }
  else s

/-- The atomic events of a pool history.  `refillFire` is the debounced
refill timer firing; `acquireTimeout` is the expiry of one waiter's
individual deadline; `resize` is the direct `pool.targetSize = n` assignment
performed by the control server's `/pool/resize` handler. -/
inductive Event where
  | start (now : Nat)
  | stopPool
  | acquireReq (wid now : Nat)
  | acquireTimeout (wid : Nat)
  | refillFire (now : Nat)
  | bootSuccess (sid now : Nat)
  | bootFail (sid : Nat)
  | releaseReq (rid : Nat)
  | resize (n : Int)
deriving DecidableEq, Repr

/-- One step of the pool state machine. -/
def step (s : PoolState) : Event → PoolState
  | Event.start now => start s now
  | Event.stopPool => stop s
  | Event.acquireReq wid now => (acquire s wid now).1
  | Event.acquireTimeout wid => { s with waiters := removeWaiter s.waiters wid }
  | Event.refillFire now => refill s now
  | Event.bootSuccess sid now => bootSuccess s sid now
  | Event.bootFail sid => bootFail s sid
  | Event.releaseReq rid => release s rid
  | Event.resize n => { s with targetSize := n }

/-- Run a sequence of pool events. -/
def runEvents (s : PoolState) (es : List Event) : PoolState :=
  es.foldl step s

end WarmPool

/-! ## VM runner (`lib/agent-runner.js`) -/

namespace Runner

/-- `DEFAULT_SSH_PORT_BASE` from the source. -/
def DEFAULT_SSH_PORT_BASE : Nat := 12200

/-- `allocPort()` — reads and post-increments the module-scoped
`_portCounter`; returns the allocated port together with the new counter. -/
def allocPort (counter : Nat) : Nat × Nat :=
  (DEFAULT_SSH_PORT_BASE + counter % 100, counter + 1)

/-- Ports allocated by `n` successive `CarapaceRunner` constructions in one
process, starting from counter value `c` (each constructor calls
`allocPort()` exactly once). -/
def allocSeq : Nat → Nat → List Nat
  | _, 0 => []
  | c, n + 1 => (allocPort c).1 :: allocSeq (allocPort c).2 n

/-- Possible outcomes of the `ssh` child process spawned by `sshExec`.
`error` is the child-process `error` event (the subprocess could not be
spawned).  `exited c` is a normal exit: the `close` event fires with the
exit code.  `timedOut` is expiry of the `timeout` option passed to `spawn`:
Node kills the child with `SIGTERM`, after which the `close` event fires
with `code = null` — no `error` event is emitted for a timeout kill. -/
inductive SpawnOutcome where
  | error
  | exited (code : Int) (stdout stderr : String)
  | timedOut (stdout stderr : String)
deriving DecidableEq, Repr

/-- The value `run` resolves with: `{ stdout, stderr, code, duration }`.
`code` is `none` when the child was killed before exiting (Node reports
`null`). -/
structure RunResult where
  stdout : String
  stderr : String
  code : Option Int
  duration : Nat
deriving DecidableEq, Repr

/-- `sshExec(sshArgs, command, timeoutMs)` — resolves on the `close` event
with the trimmed output and the exit code, rejects on the `error` event. -/
def sshExec (outcome : SpawnOutcome) : Except String (String × String × Option Int) :=
  match outcome with
  | SpawnOutcome.error => Except.error "spawn error"
  | SpawnOutcome.exited c out err => Except.ok (out.trim, err.trim, some c)
  | SpawnOutcome.timedOut out err => Except.ok (out.trim, err.trim, none)

/-- The per-call time budget of `run`:
`opts.timeout ? opts.timeout * 1000 : this.taskTimeout` (`opts.timeout` in
seconds; `0` is falsy and falls back to the configured task timeout). -/
def runTimeoutMs (optTimeout taskTimeoutMs : Nat) : Nat :=
  if optTimeout ≠ 0 then optTimeout * 1000 else taskTimeoutMs

/-- `CarapaceRunner.run(command, opts)` — throws when the VM is not booted,
otherwise forwards the `sshExec` outcome, adding the measured duration. -/
def run (booted : Bool) (outcome : SpawnOutcome) (duration : Nat) :
    Except String RunResult :=
  if !booted then Except.error "VM not booted. Call boot() first."
  else
    match sshExec outcome with
    | Except.error e => Except.error e
    | Except.ok (out, err, c) =>
        Except.ok { stdout := out, stderr := err, code := c, duration := duration }

/-- The runner state observed by `shutdown`: whether the hypervisor child
handle is set (`this._qemuProc !== null`), the `booted` flag, whether the
work directory exists on disk, and whether the serial log was already copied
to the host temp directory. -/
structure RunnerState where
  qemuProc : Bool
  booted : Bool
  workDirExists : Bool
  bootLogCopied : Bool
deriving DecidableEq, Repr

/-- Outcomes of the fallible host operations performed by `shutdown`; each
is wrapped in its own catch in the source. -/
structure ShutdownEnv where
  sshPoweroffFails : Bool
  killThrows : Bool
  copyFails : Bool
  rmFails : Bool
deriving DecidableEq, Repr

/-- `CarapaceRunner.shutdown(keepWorkDir)` — attempt an in-guest poweroff
(errors swallowed), kill the hypervisor child (errors swallowed), clear the
handle and the `booted` flag, copy the serial log (best effort) and remove
the work directory (best effort).  Every fallible operation is guarded, so
the result is always `ok`. -/
def shutdown (env : ShutdownEnv) (keepWorkDir : Bool) (r : RunnerState) :
    Except String RunnerState :=
  let r1 :=
    if r.qemuProc then
      -- `await sshExec(..., 'sudo poweroff', 3000).catch(() => {})`
      -- `try { this._qemuProc.kill('SIGTERM') } catch { }`
      -- `this._qemuProc = null`
      let _ignored := if env.sshPoweroffFails then () else ()
      let _ignored2 := if env.killThrows then () else ()
      { r with qemuProc := false }
    else r
  let r2 := { r1 with booted := false }
  if keepWorkDir then Except.ok r2
  else
    -- `if (existsSync(bootLogSrc)) try { copyFileSync(...) } catch { }`
    let r3 :=
      if r2.workDirExists && !env.copyFails then { r2 with bootLogCopied := true } else r2
    -- `try { sh(`rm -rf "${this._workDir}"`) } catch { }`
    if env.rmFails then Except.ok r3
    else Except.ok { r3 with workDirExists := false }

end Runner

/-! ## Control server (`lib/control-server.js`) -/

namespace ControlServer

/-- `MAX_BODY_BYTES` from the source (1 MiB). -/
def MAX_BODY_BYTES : Nat := 1024 * 1024

/-- The two rejection reasons of `parseBody`. -/
inductive BodyError where
  | tooLarge
  | invalidJSON
deriving DecidableEq, Repr

/-- An incoming request body, abstracted to what `parseBody` inspects: its
total byte length and whether its text parses as JSON. -/
structure ReqBody where
  length : Nat
  validJSON : Bool
deriving DecidableEq, Repr

/-- `parseBody(req)` — rejects with `'Request body too large'` as soon as the
received bytes exceed `MAX_BODY_BYTES`; an empty body resolves to `{}`;
otherwise the text is JSON-parsed, rejecting on a syntax error.  The parsed
value itself is irrelevant to the modelled behaviour. -/
def parseBody (b : ReqBody) : Except BodyError Unit :=
  if b.length > MAX_BODY_BYTES then Except.error BodyError.tooLarge
  else if b.length = 0 then Except.ok ()
  else if b.validJSON then Except.ok ()
  else Except.error BodyError.invalidJSON

/-- `_handleAcquire` reduced to the HTTP status it answers with: a
`parseBody` rejection is answered with status 400 (`err(res, 400,
e.message)`), a pool `acquire` failure with 503, success with 200. -/
def handleAcquireStatus (b : ReqBody) (acquireResult : Except String Unit) : Nat :=
  match parseBody b with
  | Except.error _ => 400
  | Except.ok _ =>
    match acquireResult with
    | Except.ok _ => 200
    | Except.error _ => 503

/-- `_handlePoolResize` — a `parseBody` rejection is answered with 400;
`body.size` must be a number between 0 and 16 inclusive (400 otherwise);
a valid size is assigned directly: `this.pool.targetSize = size`, with no
clamping.  Returns the HTTP status and the updated pool state. -/
def handlePoolResize (b : ReqBody) (size : Option Int)
    (pool : WarmPool.PoolState) : Nat × WarmPool.PoolState :=
  match parseBody b with
  | Except.error _ => (400, pool)
  | Except.ok _ =>
    match size with
    | none => (400, pool)
    | some n =>
      if n < 0 ∨ n > 16 then (400, pool)
      else (200, { pool with targetSize := n })

end ControlServer

/-! ## Seed ISO builder (`lib/seed-iso.js`) -/

namespace SeedISO

/-- Byte strings: a Node `Buffer` is a list of byte values. -/
abbrev Bytes := List Nat

/-- `SECTOR_SIZE` from the source. -/
def SECTOR_SIZE : Nat := 2048

/-- `padToSector(buf)` — zero-pad up to the next 2,048-byte boundary. -/
def padToSector (b : Bytes) : Bytes :=
  if b.length % SECTOR_SIZE = 0 then b
  else b ++ List.replicate (SECTOR_SIZE - b.length % SECTOR_SIZE) 0

/-- `src.copy(dst, off)` / `dst.write(str, off)` — overwrite `dst` at
offset `off` with as many bytes of `src` as fit; the buffer keeps its
length. -/
def blit (dst : Bytes) (off : Nat) (src : Bytes) : Bytes :=
  let written := src.take (dst.length - off)
  dst.take off ++ written ++ dst.drop (off + written.length)

/-- ASCII code points of a string (all embedded strings are ASCII, where
UTF-8 bytes and code points agree). -/
def asciiOf (s : String) : Bytes := s.data.map Char.toNat

/-- `String.prototype.toUpperCase` on an ASCII byte. -/
def asciiUpper (c : Nat) : Nat := if 97 ≤ c ∧ c ≤ 122 then c - 32 else c

/-- `toUpperCase` on an ASCII byte string. -/
def upperBytes (b : Bytes) : Bytes := b.map asciiUpper

/-- `strD(str, len)` — ISO 9660 d-characters field: a `len`-byte buffer
filled with spaces (0x20), overwritten from offset 0 with
`str.substring(0, len)`. -/
def strD (s : Bytes) (len : Nat) : Bytes :=
  blit (List.replicate len 0x20) 0 (s.take len)

/-- `strA(str, len)` — like `strD` but upper-cased. -/
def strA (s : Bytes) (len : Nat) : Bytes :=
  strD (upperBytes s) len

/-- `writeUInt32LE`. -/
def int32LSB (n : Nat) : Bytes :=
  [n % 256, n / 256 % 256, n / 256 ^ 2 % 256, n / 256 ^ 3 % 256]

/-- `writeUInt32BE`. -/
def int32MSB (n : Nat) : Bytes :=
  [n / 256 ^ 3 % 256, n / 256 ^ 2 % 256, n / 256 % 256, n % 256]

/-- `int32LSBMSB(n)` — both-byte-orders 32-bit field. -/
def int32LSBMSB (n : Nat) : Bytes := int32LSB n ++ int32MSB n

/-- `writeUInt16LE`. -/
def int16LSB (n : Nat) : Bytes := [n % 256, n / 256 % 256]

/-- `writeUInt16BE`. -/
def int16MSB (n : Nat) : Bytes := [n / 256 % 256, n % 256]

/-- `int16LSBMSB(n)` — both-byte-orders 16-bit field. -/
def int16LSBMSB (n : Nat) : Bytes := int16LSB n ++ int16MSB n

/-- The UTC components of a JavaScript `Date`, as read by the two datetime
encoders. -/
structure JSDate where
  year : Nat
  month : Nat
  day : Nat
  hour : Nat
  minute : Nat
  second : Nat
deriving DecidableEq, Repr

/-- ASCII decimal digits of a number (`String(n)`). -/
def digitsOf (n : Nat) : Bytes := asciiOf (toString n)

/-- `String(n).padStart(2, '0')`. -/
def pad2 (n : Nat) : Bytes :=
  let d := digitsOf n
  if d.length < 2 then List.replicate (2 - d.length) 48 ++ d else d

/-- `decDateTime(d)` — ISO 9660 17-byte decimal datetime: a buffer filled
with ASCII `'0'` (0x30), overwritten field by field, with a trailing zero
byte for the UTC offset. -/
def decDateTime (d : JSDate) : Bytes :=
  let b0 := List.replicate 17 0x30
  let b1 := blit b0 0 (digitsOf d.year)
  let b2 := blit b1 4 (pad2 d.month)
  let b3 := blit b2 6 (pad2 d.day)
  let b4 := blit b3 8 (pad2 d.hour)
  let b5 := blit b4 10 (pad2 d.minute)
  let b6 := blit b5 12 (pad2 d.second)
  let b7 := blit b6 14 (asciiOf "00")
  blit b7 16 [0]

/-- `dirDateTime(d)` — ISO 9660 7-byte directory recording date. -/
def dirDateTime (d : JSDate) : Bytes :=
  [(d.year - 1900) % 256, d.month % 256, d.day % 256,
   d.hour % 256, d.minute % 256, d.second % 256, 0]

/-- `dirRecord(name, extentLBA, dataLength, isDir, date)` — one ISO 9660
directory record; the record length is `33 + |name|`, rounded up to even. -/
def dirRecord (name : Bytes) (extentLBA dataLength : Nat) (isDir : Bool)
    (d : JSDate) : Bytes :=
  let nameLen := name.length
  let recLen0 := 33 + nameLen
  let recLen := if recLen0 % 2 ≠ 0 then recLen0 + 1 else recLen0
  let r0 := List.replicate recLen 0
  let r1 := blit r0 0 [recLen % 256]
  let r2 := blit r1 1 [0]
  let r3 := blit r2 2 (int32LSBMSB extentLBA)
  let r4 := blit r3 10 (int32LSBMSB dataLength)
  let r5 := blit r4 18 (dirDateTime d)
  let r6 := blit r5 25 [if isDir then 0x02 else 0x00]
  let r7 := blit r6 26 [0]
  let r8 := blit r7 27 [0]
  let r9 := blit r8 28 (int16LSBMSB 1)
  let r10 := blit r9 32 [nameLen % 256]
  blit r10 33 name

/-- One input file of `buildISO`: the content has already been converted to
a byte buffer (`Buffer.from(content, 'utf8')`). -/
structure ISOFile where
  name : String
  isoName : String
  content : Bytes
deriving DecidableEq, Repr

/-- `DATA_START_SECTOR` from the source — file data is assumed to begin
right after the single root-directory sector. -/
def DATA_START_SECTOR : Nat := 21

/-- Sector count of a file extent: `Math.ceil(content.length / SECTOR_SIZE)`. -/
def sectorsOf (content : Bytes) : Nat :=
  (content.length + SECTOR_SIZE - 1) / SECTOR_SIZE

/-- The LBA assignment loop: each file is placed at `nextSector`, which
advances by the file's sector count. -/
def layout : Nat → List ISOFile → List (ISOFile × Nat)
  | _, [] => []
  | next, f :: rest => (f, next) :: layout (next + sectorsOf f.content) rest

/-- `totalSectors` — the value of `nextSector` after all files are placed. -/
def totalSectorsOf (files : List ISOFile) : Nat :=
  DATA_START_SECTOR + (files.map fun f => sectorsOf f.content).sum

/-- `DOT_LBA` — the root directory lives in sector 20. -/
def DOT_LBA : Nat := 20

/-- The root directory: the `.` and `..` entries followed by one record per
file, concatenated in order. -/
def rootDirectory (files : List ISOFile) (d : JSDate) : Bytes :=
  dirRecord [0] DOT_LBA SECTOR_SIZE true d
    ++ dirRecord [1] DOT_LBA SECTOR_SIZE true d
    ++ ((layout DATA_START_SECTOR files).map fun p =>
          dirRecord (asciiOf p.1.isoName) p.2 p.1.content.length false d).flatten

/-- The 10-byte LSB path table (root entry only). -/
def ptL : Bytes :=
  let b0 := List.replicate 10 0
  let b1 := blit b0 0 [1]
  let b2 := blit b1 1 [0]
  let b3 := blit b2 2 (int32LSB DOT_LBA)
  let b4 := blit b3 6 (int16LSB 1)
  let b5 := blit b4 8 [0x00]
  blit b5 9 [0x00]

/-- The 10-byte MSB path table (root entry only). -/
def ptM : Bytes :=
  let b0 := List.replicate 10 0
  let b1 := blit b0 0 [1]
  let b2 := blit b1 1 [0]
  let b3 := blit b2 2 (int32MSB DOT_LBA)
  let b4 := blit b3 6 (int16MSB 1)
  let b5 := blit b4 8 [0x00]
  blit b5 9 [0x00]

/-- The primary volume descriptor (sector 16), written field by field into a
zeroed 2,048-byte buffer, in the order of the source. -/
def makePVD (volumeLabel : String) (totalSectors rootLen : Nat) (d : JSDate) : Bytes :=
  let p0 := List.replicate SECTOR_SIZE 0
  let p1 := blit p0 0 [1]
  let p2 := blit p1 1 (asciiOf "CD001")
  let p3 := blit p2 6 [1]
  let p4 := blit p3 8 (strA (asciiOf " ") 32)
  let p5 := blit p4 40 (strD (upperBytes (asciiOf volumeLabel)) 32)
  let p6 := blit p5 80 (int32LSBMSB totalSectors)
  let p7 := blit p6 120 (int16LSBMSB 1)
  let p8 := blit p7 124 (int16LSBMSB 1)
  let p9 := blit p8 128 (int16LSBMSB SECTOR_SIZE)
  let p10 := blit p9 132 (int32LSBMSB ptL.length)
  let p11 := blit p10 140 (int32LSB 18)
  let p12 := blit p11 144 (int32LSB 0)
  let p13 := blit p12 148 (int32MSB 19)
  let p14 := blit p13 152 (int32MSB 0)
  let p15 := blit p14 156 (dirRecord [0] DOT_LBA rootLen true d)
  let p16 := blit p15 190 (strD (asciiOf " ") 128)
  let p17 := blit p16 318 (strA (asciiOf "") 128)
  let p18 := blit p17 446 (strA (asciiOf "") 128)
  let p19 := blit p18 574 (strA (asciiOf "CARAPACEOS") 128)
  let p20 := blit p19 813 (decDateTime d)
  let p21 := blit p20 830 (decDateTime d)
  let p22 := blit p21 847 (List.replicate 17 0x30)
  let p23 := blit p22 864 (decDateTime d)
  blit p23 881 [1]

/-- The volume descriptor set terminator (sector 17). -/
def vdst : Bytes :=
  let v0 := List.replicate SECTOR_SIZE 0
  let v1 := blit v0 0 [255]
  let v2 := blit v1 1 (asciiOf "CD001")
  blit v2 6 [1]

/-- `buildISO(files, outputPath, volumeLabel)` — the byte string written to
`outputPath`: 16 zero sectors, the PVD, the terminator, both path tables
(each zero-padded to a sector), the padded root directory, then the padded
file contents in order. -/
def buildISO (files : List ISOFile) (volumeLabel : String) (d : JSDate) : Bytes :=
  let rootDirPadded := padToSector (rootDirectory files d)
  let pvd := makePVD volumeLabel (totalSectorsOf files) rootDirPadded.length d
  List.replicate (16 * SECTOR_SIZE) 0
    ++ pvd
    ++ vdst
    ++ padToSector ptL
    ++ padToSector ptM
    ++ rootDirPadded
    ++ ((layout DATA_START_SECTOR files).map fun p => padToSector p.1.content).flatten

/-- Region of `len` bytes at offset `off`. -/
def extract (b : Bytes) (off len : Nat) : Bytes := (b.drop off).take len

/-- Hexadecimal digit character, lower case. -/
def hexDigit (n : Nat) : Char :=
  if n < 10 then Char.ofNat (48 + n) else Char.ofNat (97 + n - 10)

/-- Two-digit lower-case hex of a byte. -/
def hex2 (n : Nat) : String :=
  String.mk [hexDigit (n / 16 % 16), hexDigit (n % 16)]

/-- Escaping of one character under `JSON.stringify` (modelled from the JSON
specification of string serialisation, which the source relies on for safe
quoting of `runcmd` entries). -/
def jsonEscapeChar (c : Char) : String :=
  if c = '"' then "\\\""
  else if c = '\\' then "\\\\"
  else if c = '\n' then "\\n"
  else if c = '\r' then "\\r"
  else if c = '\t' then "\\t"
  else if c = Char.ofNat 8 then "\\b"
  else if c = Char.ofNat 12 then "\\f"
  else if c.toNat < 32 then "\\u00" ++ hex2 c.toNat
  else String.singleton c

/-- `JSON.stringify(cmd)` for a string value. -/
def jsonQuote (s : String) : String :=
  "\"" ++ String.join (s.data.map jsonEscapeChar) ++ "\""

/-- Options of `createSeedISO`; `hostname` defaults to `'carapaceos'` and
`runcmd` to `[]` at the call sites modelled in the theorems. -/
structure SeedOpts where
  sshPublicKey : Option String
  outputPath : Option String
  hostname : String
  instanceId : Option String
  runcmd : List String
deriving DecidableEq, Repr

/-- The `meta-data` lines. -/
def metaDataLines (iid hostname : String) : List String :=
  ["instance-id: " ++ iid, "local-hostname: " ++ hostname]

/-- The `runcmd:` entries of `user-data`: the readiness-sentinel write
first, then each caller-supplied command, `JSON.stringify`-quoted. -/
def runcmdLines (extra : List String) : List String :=
  "  - echo \"CARAPACEOS_READY\" > /dev/ttyS0"
    :: extra.map fun cmd => "  - " ++ jsonQuote cmd

/-- The `user-data` lines. -/
def userDataLines (pubKey : String) (extra : List String) : List String :=
  ["#cloud-config",
   "ssh_authorized_keys:",
   "  - " ++ pubKey.trim,
   "ssh_pwauth: false",
   "runcmd:"]
    ++ runcmdLines extra

/-- `lines.join('\n') + '\n'`. -/
def joinLines (ls : List String) : String := String.intercalate "\n" ls ++ "\n"

/-- `createSeedISO(opts)` — validates the required options (a JavaScript
falsy check, so an absent and an empty string both fail), defaults the
instance id to `carapaceos-${Date.now()}`, assembles `meta-data` and
`user-data` and hands both files to `buildISO` with the default volume
label `'cidata'`.  The result is the ISO byte string written to
`outputPath`. -/
def createSeedISO (o : SeedOpts) (nowMs : Nat) (d : JSDate) : Except String Bytes :=
  match o.sshPublicKey with
  | none => Except.error "sshPublicKey is required"
  | some key =>
    if key = "" then Except.error "sshPublicKey is required"
    else
      match o.outputPath with
      | none => Except.error "outputPath is required"
      | some path =>
        if path = "" then Except.error "outputPath is required"
        else
          let iid :=
            match o.instanceId with
            | some i => if i = "" then "carapaceos-" ++ toString nowMs else i
            | none => "carapaceos-" ++ toString nowMs
          let metaData := joinLines (metaDataLines iid o.hostname)
          let userData := joinLines (userDataLines key o.runcmd)
          Except.ok (buildISO
            [{ name := "meta-data", isoName := "META-DATA.;1", content := asciiOf metaData },
             { name := "user-data", isoName := "USER-DATA.;1", content := asciiOf userData }]
            "cidata" d)

end SeedISO

/-! ## Auxiliary definitions for the verification -/

namespace WarmPool

/-- No dead slot is ever stored in the registry: every transition to `DEAD`
immediately deletes the slot (in `release`, `_evictStale`, `_bootSlot`'s
failure and stopping branches) or clears the whole registry (`stop`). -/
def NoDeadSlots (s : PoolState) : Prop :=
  ∀ sl ∈ s.slots, sl.state ≠ SlotState.dead

/-- Invariant for the hard-cap property: the registry never holds more than
`maxSize` slots, and holds no dead slot. -/
structure CapInv (s : PoolState) : Prop where
  noDead : NoDeadSlots s
  lenLe : (s.slots.length : Int) ≤ s.maxSize

/-- Invariant for the no-recycling property.  Runner identities are drawn
from `runnerCounter` and never repeat; a runner that was handed out
(`emitted`) only ever sits in an `ACTIVE` slot, so it can never again be
selected by `_findWarmSlot`; slot ids are likewise unique. -/
structure RecycleInv (s : PoolState) : Prop where
  runnersNodup : (s.slots.map Slot.runner).Nodup
  runnersLt : ∀ sl ∈ s.slots, sl.runner < s.runnerCounter
  emittedLt : ∀ r ∈ s.emitted, r < s.runnerCounter
  emittedActive : ∀ r ∈ s.emitted, ∀ sl ∈ s.slots, sl.runner = r → sl.state = SlotState.active
  emittedNodup : s.emitted.Nodup
  idsNodup : (s.slots.map Slot.id).Nodup
  idsLe : ∀ sl ∈ s.slots, sl.id ≤ s.slotCounter

/-- A pool state with no warm slot (every handout therefore has to wait). -/
def NoWarmSlots (s : PoolState) : Prop :=
  ∀ sl ∈ s.slots, sl.state ≠ SlotState.warm

/-- The runner stored in the slot with id `sid` (0 if no such slot — the
scenarios using it always have one). -/
def runnerOfSlot (s : PoolState) (sid : Nat) : Nat :=
  ((s.slots.find? fun sl => sl.id = sid).map Slot.runner).getD 0

/-- A sequence of boot completions, one per listed `(slot id, time)` pair. -/
def warmingEvents (ws : List (Nat × Nat)) : List Event :=
  ws.map fun p => Event.bootSuccess p.1 p.2

/-- Fixture: a pool with two booting slots and two blocked waiters, used as
the concrete instance of the FIFO-fairness scenario. -/
def exFifoPool : PoolState :=
  { targetSize := 2
    maxSize := 8
    maxWarmAgeMs := 0
    slots := [{ id := 1, state := SlotState.booting, runner := 10, createdAt := 0,
                warmAt := none, acquiredAt := none },
              { id := 2, state := SlotState.booting, runner := 11, createdAt := 0,
                warmAt := none, acquiredAt := none }]
    slotCounter := 2
    runnerCounter := 12
    started := true
    stopping := false
    waiters := [100, 101]
    emitted := []
    served := [] }

end WarmPool

namespace SeedISO

/-- Fixture: 55 one-byte files whose directory records (38 bytes each)
overflow the single root-directory sector assumed by `DATA_START_SECTOR`. -/
def cexFiles : List ISOFile :=
  List.replicate 55 { name := "f", isoName := "AB.;1", content := [120] }

/-- Fixture date. -/
def cexDate : JSDate :=
  { year := 2025, month := 1, day := 1, hour := 0, minute := 0, second := 0 }

/-- Fixture: the two seed files of a typical `createSeedISO` call. -/
def exSeedFiles : List ISOFile :=
  [{ name := "meta-data", isoName := "META-DATA.;1",
     content := asciiOf "instance-id: carapaceos-1\nlocal-hostname: carapaceos\n" },
   { name := "user-data", isoName := "USER-DATA.;1",
     content := asciiOf "#cloud-config\n" }]

end SeedISO

/-! ## Theorems -/

/-! ### Buffer (`blit`) helper lemmas -/

namespace SeedISO

theorem blit_length (dst : Bytes) (off : Nat) (src : Bytes) :
    (blit dst off src).length = dst.length := by
  simp only [blit, List.length_append, List.length_take, List.length_drop]
  omega

/-- A write strictly to the right of the extracted region leaves it alone. -/
theorem extract_blit_of_right (dst : Bytes) (off : Nat) (src : Bytes) (off2 len2 : Nat)
    (h : off2 + len2 ≤ off) :
    extract (blit dst off src) off2 len2 = extract dst off2 len2 := by
  simp only [extract, blit]
  by_cases hoff : off ≤ dst.length
  · have hA : (dst.take off).length = off := by simp [List.length_take]; omega
    rw [List.append_assoc, List.drop_append_eq_append_drop]
    rw [show off2 - (dst.take off).length = 0 by rw [hA]; omega, List.drop_zero]
    rw [List.take_append_eq_append_take]
    rw [show len2 - ((dst.take off).drop off2).length = 0 by
      simp only [List.length_drop, hA]; omega]
    rw [List.take_zero, List.append_nil]
    rw [List.drop_take]
    rw [List.take_take]
    congr 1
    omega
  · have hw : src.take (dst.length - off) = [] := by
      rw [show dst.length - off = 0 by omega]
      exact List.take_zero src
    rw [hw]
    have hA : dst.take off = dst := List.take_of_length_le (by omega)
    have hB : dst.drop (off + ([] : Bytes).length) = [] :=
      List.drop_eq_nil_of_le (by simp; omega)
    rw [hA, hB]
    simp

/-- A write strictly to the left of the extracted region leaves it alone. -/
theorem extract_blit_of_left (dst : Bytes) (off : Nat) (src : Bytes) (off2 len2 : Nat)
    (h : off + src.length ≤ off2) :
    extract (blit dst off src) off2 len2 = extract dst off2 len2 := by
  simp only [extract, blit]
  by_cases hoff : off ≤ dst.length
  · have hA : (dst.take off).length = off := by simp [List.length_take]; omega
    have hwlen : (src.take (dst.length - off)).length ≤ src.length := by
      simp [List.length_take]
    rw [List.drop_append_eq_append_drop, List.drop_append_eq_append_drop]
    have h1 : (dst.take off).drop off2 = [] :=
      List.drop_eq_nil_of_le (by rw [hA]; omega)
    have h2 : (src.take (dst.length - off)).drop (off2 - (dst.take off).length) = [] :=
      List.drop_eq_nil_of_le (by rw [hA]; omega)
    rw [h1, h2, List.nil_append, List.nil_append, List.drop_drop]
    congr 2
    simp only [List.length_append, List.length_take]
    omega
  · have hw : src.take (dst.length - off) = [] := by
      rw [show dst.length - off = 0 by omega]
      exact List.take_zero src
    rw [hw]
    have hA : dst.take off = dst := List.take_of_length_le (by omega)
    have hB : dst.drop (off + ([] : Bytes).length) = [] :=
      List.drop_eq_nil_of_le (by simp; omega)
    rw [hA, hB]
    simp

/-- Extracting exactly the written region yields the written bytes. -/
theorem extract_blit_self (dst : Bytes) (off : Nat) (src : Bytes) (n : Nat)
    (hn : n = src.length) (h : off + src.length ≤ dst.length) :
    extract (blit dst off src) off n = src := by
  simp only [extract, blit]
  have hw : src.take (dst.length - off) = src := List.take_of_length_le (by omega)
  rw [hw]
  have hA : (dst.take off).length = off := by simp [List.length_take]; omega
  rw [List.append_assoc, List.drop_append_eq_append_drop]
  rw [show off - (dst.take off).length = 0 by rw [hA]; omega]
  have h1 : (dst.take off).drop off = [] := List.drop_eq_nil_of_le (by rw [hA])
  rw [h1, List.nil_append, List.drop_zero]
  rw [List.take_append_eq_append_take]
  rw [show n - src.length = 0 by omega, List.take_zero, List.append_nil]
  exact List.take_of_length_le (by omega)

/-- Extracting a region wholly inside the left part of an append. -/
theorem extract_append_left (A B : Bytes) (o n : Nat) (h : o + n ≤ A.length) :
    extract (A ++ B) o n = extract A o n := by
  unfold extract
  rw [List.drop_append_eq_append_drop]
  rw [show o - A.length = 0 by omega, List.drop_zero]
  rw [List.take_append_eq_append_take]
  rw [show n - (A.drop o).length = 0 by simp [List.length_drop]; omega]
  rw [List.take_zero, List.append_nil]

/-- Extracting past the left part of an append. -/
theorem extract_append_right (A B : Bytes) (o n : Nat) :
    extract (A ++ B) (A.length + o) n = extract B o n := by
  unfold extract
  rw [List.drop_append_eq_append_drop]
  have h1 : A.drop (A.length + o) = [] := List.drop_eq_nil_of_le (by omega)
  rw [h1, List.nil_append]
  congr 2
  omega

theorem strD_length (s : Bytes) (len : Nat) : (strD s len).length = len := by
  simp [strD, blit_length]

theorem strA_length (s : Bytes) (len : Nat) : (strA s len).length = len := by
  simp [strA, strD_length]

theorem decDateTime_length (d : JSDate) : (decDateTime d).length = 17 := by
  simp [decDateTime, blit_length]

theorem dirRecord_length (name : Bytes) (e dl : Nat) (i : Bool) (d : JSDate) :
    (dirRecord name e dl i d).length
      = if (33 + name.length) % 2 ≠ 0 then 33 + name.length + 1 else 33 + name.length := by
  simp only [dirRecord, blit_length, List.length_replicate]

set_option maxRecDepth 8000 in
theorem makePVD_length (lab : String) (ts rl : Nat) (d : JSDate) :
    (makePVD lab ts rl d).length = 2048 := by
  simp [makePVD, blit_length, SECTOR_SIZE]

set_option maxRecDepth 8000 in
theorem vdst_length : vdst.length = 2048 := by
  simp [vdst, blit_length, SECTOR_SIZE]

theorem padToSector_length (b : Bytes) :
    (padToSector b).length
      = if b.length % 2048 = 0 then b.length else b.length + (2048 - b.length % 2048) := by
  unfold padToSector
  by_cases h : b.length % SECTOR_SIZE = 0
  · rw [if_pos h, if_pos (by simpa [SECTOR_SIZE] using h)]
  · rw [if_neg h, if_neg (by simpa [SECTOR_SIZE] using h)]
    simp [SECTOR_SIZE]

theorem padToSector_length_sectors (b : Bytes) :
    (padToSector b).length = sectorsOf b * 2048 := by
  rw [padToSector_length]
  unfold sectorsOf
  by_cases h : b.length % 2048 = 0
  · rw [if_pos h]
    show b.length = (b.length + 2048 - 1) / 2048 * 2048
    omega
  · rw [if_neg h]
    show b.length + (2048 - b.length % 2048) = (b.length + 2048 - 1) / 2048 * 2048
    omega

theorem extract_eq_self (b : Bytes) (n : Nat) (h : b.length ≤ n) :
    extract b 0 n = b := by
  unfold extract
  rw [List.drop_zero]
  exact List.take_of_length_le h

theorem extract_append_offset (A B : Bytes) (o o' n : Nat) (h : o' = A.length + o) :
    extract (A ++ B) o' n = extract B o n := by
  rw [h]
  exact extract_append_right A B o n

theorem drop_append_all (A B : Bytes) (n : Nat) (h : n = A.length) :
    (A ++ B).drop n = B := by
  rw [h]
  exact List.drop_left A B

set_option maxRecDepth 2000 in
theorem makePVD_cd001 (lab : String) (ts rl : Nat) (d : JSDate) :
    extract (makePVD lab ts rl d) 1 5 = asciiOf "CD001" := by
  simp only [makePVD]
  rw [extract_blit_of_right _ 881 _ 1 5 (by norm_num)]
  rw [extract_blit_of_right _ 864 _ 1 5 (by norm_num)]
  rw [extract_blit_of_right _ 847 _ 1 5 (by norm_num)]
  rw [extract_blit_of_right _ 830 _ 1 5 (by norm_num)]
  rw [extract_blit_of_right _ 813 _ 1 5 (by norm_num)]
  rw [extract_blit_of_right _ 574 _ 1 5 (by norm_num)]
  rw [extract_blit_of_right _ 446 _ 1 5 (by norm_num)]
  rw [extract_blit_of_right _ 318 _ 1 5 (by norm_num)]
  rw [extract_blit_of_right _ 190 _ 1 5 (by norm_num)]
  rw [extract_blit_of_right _ 156 _ 1 5 (by norm_num)]
  rw [extract_blit_of_right _ 152 _ 1 5 (by norm_num)]
  rw [extract_blit_of_right _ 148 _ 1 5 (by norm_num)]
  rw [extract_blit_of_right _ 144 _ 1 5 (by norm_num)]
  rw [extract_blit_of_right _ 140 _ 1 5 (by norm_num)]
  rw [extract_blit_of_right _ 132 _ 1 5 (by norm_num)]
  rw [extract_blit_of_right _ 128 _ 1 5 (by norm_num)]
  rw [extract_blit_of_right _ 124 _ 1 5 (by norm_num)]
  rw [extract_blit_of_right _ 120 _ 1 5 (by norm_num)]
  rw [extract_blit_of_right _ 80 _ 1 5 (by norm_num)]
  rw [extract_blit_of_right _ 40 _ 1 5 (by norm_num)]
  rw [extract_blit_of_right _ 8 _ 1 5 (by norm_num)]
  rw [extract_blit_of_right _ 6 _ 1 5 (by norm_num)]
  rw [extract_blit_self _ 1 (asciiOf "CD001") 5 (by decide)
    (by rw [blit_length, List.length_replicate]; decide)]

set_option maxRecDepth 2000 in
theorem makePVD_volid (ts rl : Nat) (d : JSDate) :
    extract (makePVD "cidata" ts rl d) 40 32
      = asciiOf "CIDATA" ++ List.replicate 26 0x20 := by
  simp only [makePVD]
  rw [extract_blit_of_right _ 881 _ 40 32 (by norm_num)]
  rw [extract_blit_of_right _ 864 _ 40 32 (by norm_num)]
  rw [extract_blit_of_right _ 847 _ 40 32 (by norm_num)]
  rw [extract_blit_of_right _ 830 _ 40 32 (by norm_num)]
  rw [extract_blit_of_right _ 813 _ 40 32 (by norm_num)]
  rw [extract_blit_of_right _ 574 _ 40 32 (by norm_num)]
  rw [extract_blit_of_right _ 446 _ 40 32 (by norm_num)]
  rw [extract_blit_of_right _ 318 _ 40 32 (by norm_num)]
  rw [extract_blit_of_right _ 190 _ 40 32 (by norm_num)]
  rw [extract_blit_of_right _ 156 _ 40 32 (by norm_num)]
  rw [extract_blit_of_right _ 152 _ 40 32 (by norm_num)]
  rw [extract_blit_of_right _ 148 _ 40 32 (by norm_num)]
  rw [extract_blit_of_right _ 144 _ 40 32 (by norm_num)]
  rw [extract_blit_of_right _ 140 _ 40 32 (by norm_num)]
  rw [extract_blit_of_right _ 132 _ 40 32 (by norm_num)]
  rw [extract_blit_of_right _ 128 _ 40 32 (by norm_num)]
  rw [extract_blit_of_right _ 124 _ 40 32 (by norm_num)]
  rw [extract_blit_of_right _ 120 _ 40 32 (by norm_num)]
  rw [extract_blit_of_right _ 80 _ 40 32 (by norm_num)]
  rw [extract_blit_self _ 40 (strD (upperBytes (asciiOf "cidata")) 32) 32
    (by rw [strD_length])
    (by rw [strD_length, blit_length, blit_length, blit_length, blit_length,
        List.length_replicate]; decide)]
  decide

theorem ptL_length : ptL.length = 10 := by
  simp [ptL, blit_length]

theorem ptM_length : ptM.length = 10 := by
  simp [ptM, blit_length]

theorem padded_ptL_length : (padToSector ptL).length = 2048 := by
  rw [padToSector_length, ptL_length]
  norm_num

theorem padded_ptM_length : (padToSector ptM).length = 2048 := by
  rw [padToSector_length, ptM_length]
  norm_num

theorem dot_record_length (d : JSDate) (e dl : Nat) (i : Bool) (b : Nat) :
    (dirRecord [b] e dl i d).length = 34 := by
  rw [dirRecord_length]
  norm_num

theorem rootDirectory_length_pos (files : List ISOFile) (d : JSDate) :
    0 < (rootDirectory files d).length := by
  unfold rootDirectory
  rw [List.length_append, List.length_append, dot_record_length]
  omega

theorem rootDirLen_aux (d : JSDate) :
    ∀ (files : List ISOFile) (n : Nat),
      (((layout n files).map fun p =>
          dirRecord (asciiOf p.1.isoName) p.2 p.1.content.length false d).flatten).length
      = (files.map fun f =>
          if (33 + (asciiOf f.isoName).length) % 2 ≠ 0
          then 33 + (asciiOf f.isoName).length + 1
          else 33 + (asciiOf f.isoName).length).sum := by
  intro files
  induction files with
  | nil => intro n; rfl
  | cons f rest ih =>
    intro n
    show ((dirRecord (asciiOf f.isoName) n f.content.length false d
        :: (layout (n + sectorsOf f.content) rest).map fun p =>
          dirRecord (asciiOf p.1.isoName) p.2 p.1.content.length false d).flatten).length
      = _
    rw [List.flatten_cons, List.length_append, ih (n + sectorsOf f.content)]
    rw [dirRecord_length]
    rfl

theorem rootDirectory_length (files : List ISOFile) (d : JSDate) :
    (rootDirectory files d).length
      = 68 + (files.map fun f =>
          if (33 + (asciiOf f.isoName).length) % 2 ≠ 0
          then 33 + (asciiOf f.isoName).length + 1
          else 33 + (asciiOf f.isoName).length).sum := by
  unfold rootDirectory
  rw [List.length_append, List.length_append, dot_record_length, dot_record_length]
  rw [rootDirLen_aux d files DATA_START_SECTOR]

theorem padded_root_length (files : List ISOFile) (d : JSDate)
    (h : (rootDirectory files d).length ≤ 2048) :
    (padToSector (rootDirectory files d)).length = 2048 := by
  have hp := rootDirectory_length_pos files d
  rw [padToSector_length]
  split <;> omega

theorem layout_map_fst (files : List ISOFile) :
    ∀ n : Nat, (layout n files).map Prod.fst = files := by
  induction files with
  | nil => intro n; rfl
  | cons f rest ih =>
    intro n
    show f :: (layout (n + sectorsOf f.content) rest).map Prod.fst = f :: rest
    rw [ih]

theorem padded_contents (files : List ISOFile) (n : Nat) :
    ((layout n files).map fun p => padToSector p.1.content)
      = files.map fun f => padToSector f.content := by
  conv_rhs => rw [← layout_map_fst files n]
  rw [List.map_map]
  rfl

theorem data_length (files : List ISOFile) :
    ((files.map fun f => padToSector f.content).flatten).length
      = (files.map fun f => sectorsOf f.content).sum * 2048 := by
  rw [List.length_flatten, List.map_map]
  have : (List.length ∘ fun f : ISOFile => padToSector f.content)
      = fun f : ISOFile => sectorsOf f.content * 2048 := by
    funext f
    exact padToSector_length_sectors f.content
  rw [this]
  induction files with
  | nil => simp
  | cons f rest ih => simp [ih, Nat.add_mul]

end SeedISO

/-! ### Warm-pool helper lemmas -/

namespace WarmPool

theorem findWarmLoop_fst_sublist (m n : Nat) :
    ∀ (l : List Slot) (b : Option Slot), (findWarmLoop m n l b).1.Sublist l := by
  intro l
  induction l with
  | nil => intro b; simp [findWarmLoop]
  | cons sl rest ih =>
    intro b
    by_cases hw : sl.state = SlotState.warm
    · by_cases hs : isStale m n sl
      · simp only [findWarmLoop, if_pos hw, if_pos hs]
        exact (ih b).cons sl
      · simp only [findWarmLoop, if_pos hw, if_neg hs]
        exact (ih _).cons₂ sl
    · simp only [findWarmLoop, if_neg hw]
      exact (ih b).cons₂ sl

theorem findWarmLoop_best_mem (m n : Nat) :
    ∀ (l : List Slot) (b : Option Slot) (x : Slot),
      (findWarmLoop m n l b).2 = some x →
      x ∈ (findWarmLoop m n l b).1 ∨ b = some x := by
  intro l
  induction l with
  | nil => intro b x h; right; simpa [findWarmLoop] using h
  | cons sl rest ih =>
    intro b x h
    by_cases hw : sl.state = SlotState.warm
    · by_cases hs : isStale m n sl
      · simp only [findWarmLoop, if_pos hw, if_pos hs] at h ⊢
        exact ih b x h
      · simp only [findWarmLoop, if_pos hw, if_neg hs] at h ⊢
        rcases ih _ x h with hmem | hbest
        · exact Or.inl (List.mem_cons_of_mem _ hmem)
        · cases b with
          | none =>
            simp only at hbest
            left
            cases Option.some.inj hbest
            exact List.mem_cons_self _ _
          | some o =>
            simp only at hbest
            by_cases hc : sl.warmAt.getD 0 < o.warmAt.getD 0
            · rw [if_pos hc] at hbest
              left
              cases Option.some.inj hbest
              exact List.mem_cons_self _ _
            · rw [if_neg hc] at hbest
              right
              exact congrArg some (Option.some.inj hbest)
    · simp only [findWarmLoop, if_neg hw] at h ⊢
      rcases ih b x h with hmem | hbest
      · exact Or.inl (List.mem_cons_of_mem _ hmem)
      · exact Or.inr hbest

theorem findWarmLoop_best_warm (m n : Nat) :
    ∀ (l : List Slot) (b : Option Slot),
      (∀ x, b = some x → x.state = SlotState.warm) →
      ∀ y, (findWarmLoop m n l b).2 = some y → y.state = SlotState.warm := by
  intro l
  induction l with
  | nil => intro b hb y h; exact hb y (by simpa [findWarmLoop] using h)
  | cons sl rest ih =>
    intro b hb y h
    by_cases hw : sl.state = SlotState.warm
    · by_cases hs : isStale m n sl
      · simp only [findWarmLoop, if_pos hw, if_pos hs] at h
        exact ih b hb y h
      · simp only [findWarmLoop, if_pos hw, if_neg hs] at h
        refine ih _ ?_ y h
        intro x hx
        cases b with
        | none => simp only at hx; exact (Option.some.inj hx) ▸ hw
        | some o =>
          simp only at hx
          by_cases hc : sl.warmAt.getD 0 < o.warmAt.getD 0
          · rw [if_pos hc] at hx; exact (Option.some.inj hx) ▸ hw
          · rw [if_neg hc] at hx; exact hb x (congrArg some (Option.some.inj hx))
    · simp only [findWarmLoop, if_neg hw] at h
      exact ih b hb y h

theorem findWarmLoop_noWarm (m n : Nat) :
    ∀ (l : List Slot) (b : Option Slot),
      (∀ sl ∈ l, sl.state ≠ SlotState.warm) →
      findWarmLoop m n l b = (l, b) := by
  intro l
  induction l with
  | nil => intro b _; simp [findWarmLoop]
  | cons sl rest ih =>
    intro b hnw
    have hw : ¬sl.state = SlotState.warm := hnw sl (List.mem_cons_self _ _)
    simp only [findWarmLoop, if_neg hw]
    rw [ih b fun x hx => hnw x (List.mem_cons_of_mem _ hx)]

theorem findWarmLoop_oneWarm (m n : Nat) :
    ∀ (l1 : List Slot) (w : Slot) (l2 : List Slot),
      (∀ sl ∈ l1, sl.state ≠ SlotState.warm) →
      (∀ sl ∈ l2, sl.state ≠ SlotState.warm) →
      w.state = SlotState.warm →
      isStale m n w = false →
      findWarmLoop m n (l1 ++ w :: l2) none = (l1 ++ w :: l2, some w) := by
  intro l1
  induction l1 with
  | nil =>
    intro w l2 _ h2 hw hst
    simp only [List.nil_append, findWarmLoop, if_pos hw, hst, Bool.false_eq_true,
      if_false, if_neg]
    rw [findWarmLoop_noWarm m n l2 (some w) h2]
  | cons a rest ih =>
    intro w l2 h1 h2 hw hst
    have ha : ¬a.state = SlotState.warm := h1 a (List.mem_cons_self _ _)
    simp only [List.cons_append, findWarmLoop, if_neg ha, List.append_eq]
    rw [ih w l2 (fun x hx => h1 x (List.mem_cons_of_mem _ hx)) h2 hw hst]

/-- A freshly warmed slot is never stale (`warmAge = now − now = 0`). -/
theorem isStale_fresh (m n : Nat) (sl : Slot) (h : sl.warmAt = some n) :
    isStale m n sl = false := by
  simp [isStale, h]

theorem setActive_map_runner (now sid : Nat) (l : List Slot) :
    (setActive now sid l).map Slot.runner = l.map Slot.runner := by
  unfold setActive
  rw [List.map_map]
  apply List.map_congr_left
  intro x _
  by_cases h : x.id = sid <;> simp [h]

theorem setActive_map_id (now sid : Nat) (l : List Slot) :
    (setActive now sid l).map Slot.id = l.map Slot.id := by
  unfold setActive
  rw [List.map_map]
  apply List.map_congr_left
  intro x _
  by_cases h : x.id = sid <;> simp [h]

theorem setWarm_map_runner (now sid : Nat) (l : List Slot) :
    (setWarm now sid l).map Slot.runner = l.map Slot.runner := by
  unfold setWarm
  rw [List.map_map]
  apply List.map_congr_left
  intro x _
  by_cases h : x.id = sid <;> simp [h]

theorem setWarm_map_id (now sid : Nat) (l : List Slot) :
    (setWarm now sid l).map Slot.id = l.map Slot.id := by
  unfold setWarm
  rw [List.map_map]
  apply List.map_congr_left
  intro x _
  by_cases h : x.id = sid <;> simp [h]

theorem setActive_length (now sid : Nat) (l : List Slot) :
    (setActive now sid l).length = l.length := by
  simp [setActive]

theorem setWarm_length (now sid : Nat) (l : List Slot) :
    (setWarm now sid l).length = l.length := by
  simp [setWarm]

theorem mem_setActive (now sid : Nat) (l : List Slot) (y : Slot)
    (h : y ∈ setActive now sid l) :
    ∃ x ∈ l, (x.id = sid ∧ y = { x with state := SlotState.active, acquiredAt := some now })
      ∨ (x.id ≠ sid ∧ y = x) := by
  rcases List.mem_map.mp h with ⟨x, hx, hyx⟩
  refine ⟨x, hx, ?_⟩
  by_cases hid : x.id = sid
  · left; exact ⟨hid, by rw [← hyx, if_pos hid]⟩
  · right; exact ⟨hid, by rw [← hyx, if_neg hid]⟩

theorem mem_setWarm (now sid : Nat) (l : List Slot) (y : Slot)
    (h : y ∈ setWarm now sid l) :
    ∃ x ∈ l, (x.id = sid ∧ y = { x with state := SlotState.warm, warmAt := some now })
      ∨ (x.id ≠ sid ∧ y = x) := by
  rcases List.mem_map.mp h with ⟨x, hx, hyx⟩
  refine ⟨x, hx, ?_⟩
  by_cases hid : x.id = sid
  · left; exact ⟨hid, by rw [← hyx, if_pos hid]⟩
  · right; exact ⟨hid, by rw [← hyx, if_neg hid]⟩

theorem mkSlots_length (now a b k : Nat) : (mkSlots now a b k).length = k := by
  simp [mkSlots]

theorem mkSlots_map_runner (now a b k : Nat) :
    (mkSlots now a b k).map Slot.runner = (List.range k).map (b + ·) := by
  simp [mkSlots]

theorem mkSlots_map_id (now a b k : Nat) :
    (mkSlots now a b k).map Slot.id = (List.range k).map (a + · + 1) := by
  simp [mkSlots]

theorem mem_mkSlots (now a b k : Nat) (y : Slot) (h : y ∈ mkSlots now a b k) :
    ∃ i, i < k ∧
      y = (⟨a + i + 1, SlotState.booting, b + i, now, none, none⟩ : Slot) := by
  rcases List.mem_map.mp h with ⟨i, hi, hyi⟩
  exact ⟨i, List.mem_range.mp hi, hyi.symm⟩

/-- The three live states are mutually exclusive, so their counts sum to at
most the registry size. -/
theorem filter_states_length_le (l : List Slot) :
    (l.filter fun sl => sl.state = SlotState.warm).length
      + (l.filter fun sl => sl.state = SlotState.booting).length
      + (l.filter fun sl => sl.state = SlotState.active).length
    ≤ l.length := by
  induction l with
  | nil => simp
  | cons sl rest ih =>
    cases h : sl.state <;> simp [List.filter_cons, h] <;> omega

theorem filter_neq_dead_eq_self (l : List Slot)
    (h : ∀ sl ∈ l, sl.state ≠ SlotState.dead) :
    (l.filter fun sl => sl.state ≠ SlotState.dead) = l := by
  apply List.filter_eq_self.mpr
  intro a ha
  simpa using h a ha

/-- Characterisation of `_refill`: either nothing to do, or exactly
`min(targetSize − warm − booting, maxSize − total)` fresh booting slots are
registered (that minimum being positive). -/
theorem refill_spec (s : PoolState) (now : Nat) :
    refill s now = s
      ∧ (s.stopping = true
          ∨ min (s.targetSize - ((stats s).warm : Int) - ((stats s).booting : Int))
              (s.maxSize - ((stats s).total : Int)) ≤ 0)
    ∨ ∃ k : Nat,
        (k : Int) = min (s.targetSize - ((stats s).warm : Int) - ((stats s).booting : Int))
            (s.maxSize - ((stats s).total : Int))
        ∧ 0 < k
        ∧ refill s now =
            { s with slots := s.slots ++ mkSlots now s.slotCounter s.runnerCounter k
                     slotCounter := s.slotCounter + k
                     runnerCounter := s.runnerCounter + k } := by
  by_cases hstop : s.stopping
  · left
    exact ⟨by simp [refill, hstop], Or.inl hstop⟩
  · by_cases hts : min (s.targetSize - ((stats s).warm : Int) - ((stats s).booting : Int))
        (s.maxSize - ((stats s).total : Int)) ≤ 0
    · left
      refine ⟨?_, Or.inr hts⟩
      simp only [refill, if_neg hstop]
      rw [if_pos hts]
    · right
      refine ⟨(min (s.targetSize - ((stats s).warm : Int) - ((stats s).booting : Int))
          (s.maxSize - ((stats s).total : Int))).toNat, ?_, ?_, ?_⟩
      · exact Int.toNat_of_nonneg (by omega)
      · omega
      · simp only [refill, if_neg hstop]
        rw [if_neg hts]

theorem capInv_of_slots_sublist {s : PoolState} {l : List Slot} (h : CapInv s)
    (hsub : l.Sublist s.slots) : CapInv { s with slots := l } := by
  refine ⟨?_, ?_⟩
  · intro sl hm
    exact h.noDead sl (hsub.subset hm)
  · calc (l.length : Int) ≤ (s.slots.length : Int) := by exact_mod_cast hsub.length_le
      _ ≤ s.maxSize := h.lenLe

theorem capInv_findWarmSlot {s : PoolState} (now : Nat) (h : CapInv s) :
    CapInv (findWarmSlot s now).1 :=
  capInv_of_slots_sublist h (findWarmLoop_fst_sublist _ _ s.slots none)

theorem capInv_checkout {s : PoolState} (sl : Slot) (now : Nat) (h : CapInv s) :
    CapInv (checkout s sl now) := by
  refine ⟨?_, ?_⟩
  · intro y hy
    rcases mem_setActive now sl.id s.slots y hy with ⟨x, hx, hcase⟩
    rcases hcase with ⟨_, hya⟩ | ⟨_, hyx⟩
    · rw [hya]; intro hcontra; cases hcontra
    · rw [hyx]; exact h.noDead x hx
  · show ((setActive now sl.id s.slots).length : Int) ≤ s.maxSize
    rw [setActive_length]
    exact h.lenLe

theorem capInv_serveGo (now : Nat) :
    ∀ (ws : List Nat) (s : PoolState), CapInv s → CapInv (serveGo now ws s) := by
  intro ws
  induction ws with
  | nil => intro s h; exact ⟨h.noDead, h.lenLe⟩
  | cons w rest ih =>
    intro s h
    have h1 : CapInv (findWarmSlot s now).1 := capInv_findWarmSlot now h
    simp only [serveGo]
    cases hbest : (findWarmSlot s now).2 with
    | none => exact ⟨h1.noDead, h1.lenLe⟩
    | some sl =>
      apply ih
      have h2 := capInv_checkout sl now h1
      exact ⟨h2.noDead, h2.lenLe⟩

theorem capInv_refill {s : PoolState} (now : Nat) (h : CapInv s) :
    CapInv (refill s now) := by
  rcases refill_spec s now with ⟨heq, _⟩ | ⟨k, hk, _, heq⟩
  · rw [heq]; exact h
  · rw [heq]
    refine ⟨?_, ?_⟩
    · intro y hy
      rcases List.mem_append.mp hy with hold | hnew
      · exact h.noDead y hold
      · rcases mem_mkSlots now s.slotCounter s.runnerCounter k y hnew with ⟨i, _, hyi⟩
        rw [hyi]; intro hcontra; cases hcontra
    · show ((s.slots ++ mkSlots now s.slotCounter s.runnerCounter k).length : Int) ≤ s.maxSize
      rw [List.length_append, mkSlots_length]
      have htotal : ((stats s).total : Int) ≤ (s.slots.length : Int) := by
        have := List.length_filter_le (fun sl => sl.state ≠ SlotState.dead) s.slots
        exact_mod_cast this
      have hlen := h.lenLe
      have hmin : (k : Int) ≤ s.maxSize - ((stats s).total : Int) := by
        rw [hk]; exact min_le_right _ _
      have htot_eq : ((stats s).total : Int) = (s.slots.length : Int) := by
        have : (s.slots.filter fun sl => sl.state ≠ SlotState.dead) = s.slots :=
          filter_neq_dead_eq_self s.slots h.noDead
        show (((s.slots.filter fun sl => sl.state ≠ SlotState.dead).length : Nat) : Int) = _
        rw [this]
      push_cast
      omega

theorem capInv_filter {s : PoolState} (h : CapInv s) (p : Slot → Bool) :
    CapInv { s with slots := s.slots.filter p } :=
  capInv_of_slots_sublist h (List.filter_sublist s.slots)

theorem capInv_step {s : PoolState} (e : Event) (h : CapInv s) : CapInv (step s e) := by
  cases e with
  | start now =>
    show CapInv (start s now)
    unfold start
    by_cases hst : s.started
    · rw [if_pos hst]; exact h
    · rw [if_neg hst]
      exact capInv_refill now ⟨h.noDead, h.lenLe⟩
  | stopPool =>
    show CapInv (stop s)
    unfold stop
    by_cases hst : s.stopping
    · rw [if_pos hst]; exact h
    · rw [if_neg hst]
      refine ⟨?_, ?_⟩
      · intro sl hm; cases hm
      · show ((0 : Nat) : Int) ≤ s.maxSize
        have := h.lenLe
        have hnn : (0 : Int) ≤ (s.slots.length : Int) := Int.natCast_nonneg _
        omega
  | acquireReq wid now =>
    show CapInv (acquire s wid now).1
    unfold acquire
    by_cases hst : !s.started
    · rw [if_pos hst]; exact h
    · rw [if_neg hst]
      by_cases hsp : s.stopping
      · rw [if_pos hsp]; exact h
      · rw [if_neg hsp]
        have h1 := capInv_findWarmSlot now h
        cases hbest : (findWarmSlot s now).2 with
        | some sl => simp only [hbest]; exact capInv_checkout sl now h1
        | none => simp only [hbest]; exact ⟨h1.noDead, h1.lenLe⟩
  | acquireTimeout wid => exact ⟨h.noDead, h.lenLe⟩
  | refillFire now => exact capInv_refill now h
  | bootSuccess sid now =>
    show CapInv (bootSuccess s sid now)
    unfold bootSuccess
    by_cases hany : s.slots.any fun sl => sl.id = sid && sl.state = SlotState.booting
    · rw [if_pos hany]
      by_cases hsp : s.stopping
      · rw [if_pos hsp]
        exact capInv_filter h _
      · rw [if_neg hsp]
        apply capInv_serveGo
        refine ⟨?_, ?_⟩
        · intro y hy
          rcases mem_setWarm now sid s.slots y hy with ⟨x, hx, hcase⟩
          rcases hcase with ⟨_, hyw⟩ | ⟨_, hyx⟩
          · rw [hyw]; intro hcontra; cases hcontra
          · rw [hyx]; exact h.noDead x hx
        · show ((setWarm now sid s.slots).length : Int) ≤ s.maxSize
          rw [setWarm_length]; exact h.lenLe
    · rw [if_neg hany]; exact h
  | bootFail sid =>
    show CapInv (bootFail s sid)
    unfold bootFail
    by_cases hany : s.slots.any fun sl => sl.id = sid && sl.state = SlotState.booting
    · rw [if_pos hany]; exact capInv_filter h _
    · rw [if_neg hany]; exact h
  | releaseReq rid =>
    show CapInv (release s rid)
    unfold release
    cases hf : s.slots.find? fun sl => sl.runner = rid with
    | none => exact h
    | some sl => exact capInv_filter h _
  | resize n => exact ⟨h.noDead, h.lenLe⟩

theorem capInv_runEvents {s : PoolState} (es : List Event) (h : CapInv s) :
    CapInv (runEvents s es) := by
  induction es generalizing s with
  | nil => exact h
  | cons e rest ih => exact ih (capInv_step e h)

theorem capInv_new (opts : PoolOpts) : CapInv (new opts) := by
  refine ⟨?_, ?_⟩
  · intro sl hm; cases hm
  · show ((0 : Nat) : Int) ≤ max (max 1 (opts.size.getD DEFAULT_POOL_SIZE))
        (opts.maxSize.getD DEFAULT_MAX_SIZE)
    have h1 : (1 : Int) ≤ max 1 (opts.size.getD DEFAULT_POOL_SIZE) := le_max_left _ _
    have h2 : max 1 (opts.size.getD DEFAULT_POOL_SIZE)
        ≤ max (max 1 (opts.size.getD DEFAULT_POOL_SIZE)) (opts.maxSize.getD DEFAULT_MAX_SIZE) :=
      le_max_left _ _
    omega

end WarmPool

namespace WarmPool

theorem recycleInv_of_slots_sublist {s : PoolState} {l : List Slot} (h : RecycleInv s)
    (hsub : l.Sublist s.slots) : RecycleInv { s with slots := l } := by
  refine ⟨?_, ?_, h.emittedLt, ?_, h.emittedNodup, ?_, ?_⟩
  · exact h.runnersNodup.sublist (hsub.map Slot.runner)
  · intro sl hm; exact h.runnersLt sl (hsub.subset hm)
  · intro r hr sl hm hrun; exact h.emittedActive r hr sl (hsub.subset hm) hrun
  · exact h.idsNodup.sublist (hsub.map Slot.id)
  · intro sl hm; exact h.idsLe sl (hsub.subset hm)

theorem recycleInv_findWarmSlot {s : PoolState} (now : Nat) (h : RecycleInv s) :
    RecycleInv (findWarmSlot s now).1 :=
  recycleInv_of_slots_sublist h (findWarmLoop_fst_sublist _ _ s.slots none)

theorem recycleInv_checkout {s : PoolState} {sl : Slot} (now : Nat) (h : RecycleInv s)
    (hm : sl ∈ s.slots) (hw : sl.state = SlotState.warm) :
    RecycleInv (checkout s sl now) := by
  have hnotem : sl.runner ∉ s.emitted := by
    intro hcontra
    have := h.emittedActive sl.runner hcontra sl hm rfl
    rw [hw] at this
    cases this
  refine ⟨?_, ?_, ?_, ?_, ?_, ?_, ?_⟩
  · show ((setActive now sl.id s.slots).map Slot.runner).Nodup
    rw [setActive_map_runner]; exact h.runnersNodup
  · intro y hy
    rcases mem_setActive now sl.id s.slots y hy with ⟨x, hx, hcase⟩
    have hrun : y.runner = x.runner := by
      rcases hcase with ⟨_, hEq⟩ | ⟨_, hEq⟩ <;> rw [hEq]
    rw [hrun]; exact h.runnersLt x hx
  · intro r hr
    rcases List.mem_append.mp hr with hold | hnew
    · exact h.emittedLt r hold
    · have : r = sl.runner := by simpa using hnew
      rw [this]; exact h.runnersLt sl hm
  · intro r hr y hy hyr
    rcases mem_setActive now sl.id s.slots y hy with ⟨x, hx, hcase⟩
    rcases hcase with ⟨_, hya⟩ | ⟨hxid, hyx⟩
    · rw [hya]
    · rcases List.mem_append.mp hr with hold | hnew
      · rw [hyx]
        exact h.emittedActive r hold x hx (by rw [← hyx, hyr])
      · exfalso
        have hrsl : r = sl.runner := by simpa using hnew
        have hxr : x.runner = sl.runner := by rw [← hyx, hyr, hrsl]
        have hxsl : x = sl :=
          List.inj_on_of_nodup_map h.runnersNodup hx hm hxr
        exact hxid (by rw [hxsl])
  · show (s.emitted ++ [sl.runner]).Nodup
    simp [List.nodup_append, h.emittedNodup, hnotem]
  · show ((setActive now sl.id s.slots).map Slot.id).Nodup
    rw [setActive_map_id]; exact h.idsNodup
  · intro y hy
    rcases mem_setActive now sl.id s.slots y hy with ⟨x, hx, hcase⟩
    have hid : y.id = x.id := by
      rcases hcase with ⟨_, hEq⟩ | ⟨_, hEq⟩ <;> rw [hEq]
    rw [hid]; exact h.idsLe x hx

theorem recycleInv_updateWS {s : PoolState} (w : List Nat) (v : List (Nat × Nat))
    (h : RecycleInv s) : RecycleInv { s with waiters := w, served := v } :=
  ⟨h.runnersNodup, h.runnersLt, h.emittedLt, h.emittedActive, h.emittedNodup,
   h.idsNodup, h.idsLe⟩

theorem recycleInv_serveGo (now : Nat) :
    ∀ (ws : List Nat) (s : PoolState), RecycleInv s → RecycleInv (serveGo now ws s) := by
  intro ws
  induction ws with
  | nil =>
    intro s h
    exact recycleInv_updateWS _ _ h
  | cons w rest ih =>
    intro s h
    have h1 : RecycleInv (findWarmSlot s now).1 := recycleInv_findWarmSlot now h
    simp only [serveGo]
    cases hbest : (findWarmSlot s now).2 with
    | none =>
      exact recycleInv_updateWS _ _ h1
    | some sl =>
      apply ih
      have hmem : sl ∈ (findWarmSlot s now).1.slots := by
        rcases findWarmLoop_best_mem s.maxWarmAgeMs now s.slots none sl hbest with hin | hno
        · exact hin
        · cases hno
      have hwarm : sl.state = SlotState.warm :=
        findWarmLoop_best_warm s.maxWarmAgeMs now s.slots none (by intro x hx; cases hx)
          sl hbest
      exact recycleInv_updateWS _ _ (recycleInv_checkout now h1 hmem hwarm)

theorem recycleInv_refill {s : PoolState} (now : Nat) (h : RecycleInv s) :
    RecycleInv (refill s now) := by
  rcases refill_spec s now with ⟨heq, _⟩ | ⟨k, _, _, heq⟩
  · rw [heq]; exact h
  · rw [heq]
    refine ⟨?_, ?_, ?_, ?_, h.emittedNodup, ?_, ?_⟩
    · show ((s.slots ++ mkSlots now s.slotCounter s.runnerCounter k).map Slot.runner).Nodup
      rw [List.map_append, mkSlots_map_runner, List.nodup_append]
      refine ⟨h.runnersNodup, ?_, ?_⟩
      · exact (List.nodup_range k).map fun _ _ hab => by omega
      · intro r hrold hrnew
        rcases List.mem_map.mp hrold with ⟨x, hx, hxr⟩
        have hlt : r < s.runnerCounter := hxr ▸ h.runnersLt x hx
        rcases List.mem_map.mp hrnew with ⟨i, _, hir⟩
        omega
    · intro y hy
      show y.runner < s.runnerCounter + k
      rcases List.mem_append.mp hy with hold | hnew
      · have := h.runnersLt y hold; omega
      · rcases mem_mkSlots now s.slotCounter s.runnerCounter k y hnew with ⟨i, hik, hyi⟩
        rw [hyi]; show s.runnerCounter + i < s.runnerCounter + k; omega
    · intro r hr
      show r < s.runnerCounter + k
      have := h.emittedLt r hr; omega
    · intro r hr y hy hyr
      rcases List.mem_append.mp hy with hold | hnew
      · exact h.emittedActive r hr y hold hyr
      · exfalso
        rcases mem_mkSlots now s.slotCounter s.runnerCounter k y hnew with ⟨i, _, hyi⟩
        have h1 : y.runner = s.runnerCounter + i := by rw [hyi]
        have h2 := h.emittedLt r hr
        omega
    · show ((s.slots ++ mkSlots now s.slotCounter s.runnerCounter k).map Slot.id).Nodup
      rw [List.map_append, mkSlots_map_id, List.nodup_append]
      refine ⟨h.idsNodup, ?_, ?_⟩
      · exact (List.nodup_range k).map fun _ _ hab => by omega
      · intro r hrold hrnew
        rcases List.mem_map.mp hrold with ⟨x, hx, hxr⟩
        have hle : r ≤ s.slotCounter := hxr ▸ h.idsLe x hx
        rcases List.mem_map.mp hrnew with ⟨i, _, hir⟩
        omega
    · intro y hy
      rcases List.mem_append.mp hy with hold | hnew
      · have := h.idsLe y hold; show y.id ≤ s.slotCounter + k; omega
      · rcases mem_mkSlots now s.slotCounter s.runnerCounter k y hnew with ⟨i, hik, hyi⟩
        rw [hyi]; show s.slotCounter + i + 1 ≤ s.slotCounter + k; omega

theorem recycleInv_setWarm {s : PoolState} (sid now : Nat) (h : RecycleInv s)
    (hex : ∃ x ∈ s.slots, x.id = sid ∧ x.state = SlotState.booting) :
    RecycleInv { s with slots := setWarm now sid s.slots } := by
  rcases hex with ⟨bx, hbx, hbid, hbst⟩
  refine ⟨?_, ?_, h.emittedLt, ?_, h.emittedNodup, ?_, ?_⟩
  · show ((setWarm now sid s.slots).map Slot.runner).Nodup
    rw [setWarm_map_runner]; exact h.runnersNodup
  · intro y hy
    rcases mem_setWarm now sid s.slots y hy with ⟨x, hx, hcase⟩
    have hrun : y.runner = x.runner := by
      rcases hcase with ⟨_, hEq⟩ | ⟨_, hEq⟩ <;> rw [hEq]
    rw [hrun]; exact h.runnersLt x hx
  · intro r hr y hy hyr
    rcases mem_setWarm now sid s.slots y hy with ⟨x, hx, hcase⟩
    rcases hcase with ⟨hxid, hyw⟩ | ⟨_, hyx⟩
    · exfalso
      have hxact : x.state = SlotState.active := by
        apply h.emittedActive r hr x hx
        rw [← hyr, hyw]
      have hxbx : x = bx :=
        List.inj_on_of_nodup_map h.idsNodup hx hbx (by rw [hxid, hbid])
      rw [hxbx, hbst] at hxact
      cases hxact
    · rw [hyx]
      exact h.emittedActive r hr x hx (by rw [← hyx, hyr])
  · show ((setWarm now sid s.slots).map Slot.id).Nodup
    rw [setWarm_map_id]; exact h.idsNodup
  · intro y hy
    rcases mem_setWarm now sid s.slots y hy with ⟨x, hx, hcase⟩
    have hid : y.id = x.id := by
      rcases hcase with ⟨_, hEq⟩ | ⟨_, hEq⟩ <;> rw [hEq]
    rw [hid]; exact h.idsLe x hx

theorem recycleInv_step {s : PoolState} (e : Event) (h : RecycleInv s) :
    RecycleInv (step s e) := by
  cases e with
  | start now =>
    show RecycleInv (start s now)
    unfold start
    by_cases hst : s.started
    · rw [if_pos hst]; exact h
    · rw [if_neg hst]
      exact recycleInv_refill now
        ⟨h.runnersNodup, h.runnersLt, h.emittedLt, h.emittedActive, h.emittedNodup,
         h.idsNodup, h.idsLe⟩
  | stopPool =>
    show RecycleInv (stop s)
    unfold stop
    by_cases hst : s.stopping
    · rw [if_pos hst]; exact h
    · rw [if_neg hst]
      refine ⟨List.nodup_nil, ?_, h.emittedLt, ?_, h.emittedNodup, List.nodup_nil, ?_⟩
      · intro sl hm; cases hm
      · intro r _ sl hm; cases hm
      · intro sl hm; cases hm
  | acquireReq wid now =>
    show RecycleInv (acquire s wid now).1
    unfold acquire
    by_cases hst : !s.started
    · rw [if_pos hst]; exact h
    · rw [if_neg hst]
      by_cases hsp : s.stopping
      · rw [if_pos hsp]; exact h
      · rw [if_neg hsp]
        have h1 := recycleInv_findWarmSlot now h
        cases hbest : (findWarmSlot s now).2 with
        | some sl =>
          simp only [hbest]
          have hmem : sl ∈ (findWarmSlot s now).1.slots := by
            rcases findWarmLoop_best_mem s.maxWarmAgeMs now s.slots none sl hbest with hin | hno
            · exact hin
            · cases hno
          have hwarm : sl.state = SlotState.warm :=
            findWarmLoop_best_warm s.maxWarmAgeMs now s.slots none
              (by intro x hx; cases hx) sl hbest
          exact recycleInv_checkout now h1 hmem hwarm
        | none =>
          simp only [hbest]
          exact ⟨h1.runnersNodup, h1.runnersLt, h1.emittedLt, h1.emittedActive,
            h1.emittedNodup, h1.idsNodup, h1.idsLe⟩
  | acquireTimeout wid =>
    exact ⟨h.runnersNodup, h.runnersLt, h.emittedLt, h.emittedActive, h.emittedNodup,
      h.idsNodup, h.idsLe⟩
  | refillFire now => exact recycleInv_refill now h
  | bootSuccess sid now =>
    show RecycleInv (bootSuccess s sid now)
    unfold bootSuccess
    by_cases hany : s.slots.any fun sl => sl.id = sid && sl.state = SlotState.booting
    · rw [if_pos hany]
      have hex : ∃ x ∈ s.slots, x.id = sid ∧ x.state = SlotState.booting := by
        rcases List.any_eq_true.mp hany with ⟨x, hx, hpx⟩
        refine ⟨x, hx, ?_⟩
        simpa using hpx
      by_cases hsp : s.stopping
      · rw [if_pos hsp]
        exact recycleInv_of_slots_sublist h (List.filter_sublist s.slots)
      · rw [if_neg hsp]
        exact recycleInv_serveGo now _ _ (recycleInv_setWarm sid now h hex)
    · rw [if_neg hany]; exact h
  | bootFail sid =>
    show RecycleInv (bootFail s sid)
    unfold bootFail
    by_cases hany : s.slots.any fun sl => sl.id = sid && sl.state = SlotState.booting
    · rw [if_pos hany]
      exact recycleInv_of_slots_sublist h (List.filter_sublist s.slots)
    · rw [if_neg hany]; exact h
  | releaseReq rid =>
    show RecycleInv (release s rid)
    unfold release
    cases hf : s.slots.find? fun sl => sl.runner = rid with
    | none => exact h
    | some sl => exact recycleInv_of_slots_sublist h (List.filter_sublist s.slots)
  | resize n =>
    exact ⟨h.runnersNodup, h.runnersLt, h.emittedLt, h.emittedActive, h.emittedNodup,
      h.idsNodup, h.idsLe⟩

theorem recycleInv_runEvents {s : PoolState} (es : List Event) (h : RecycleInv s) :
    RecycleInv (runEvents s es) := by
  induction es generalizing s with
  | nil => exact h
  | cons e rest ih => exact ih (recycleInv_step e h)

theorem recycleInv_new (opts : PoolOpts) : RecycleInv (new opts) := by
  refine ⟨List.nodup_nil, ?_, ?_, ?_, List.nodup_nil, List.nodup_nil, ?_⟩
  · intro sl hm; cases hm
  · intro r hr; cases hr
  · intro r hr; cases hr
  · intro sl hm; cases hm

end WarmPool

namespace WarmPool

theorem removeWaiter_eq_erase (ws : List Nat) (wid : Nat) :
    removeWaiter ws wid = ws.erase wid := by
  induction ws with
  | nil => rfl
  | cons a l ih =>
    unfold removeWaiter
    rw [List.findIdx?_cons]
    by_cases h : a = wid
    · rw [if_pos (by simp [h])]
      simp [h, List.erase_cons_head]
    · rw [if_neg (by simp [h]), List.findIdx?_succ]
      rw [List.erase_cons_tail (by simpa using h)]
      unfold removeWaiter at ih
      cases hf : l.findIdx? fun w => decide (w = wid) with
      | none =>
        rw [hf] at ih
        simp only [Option.map_none']
        rw [← ih]
      | some i =>
        rw [hf] at ih
        simp only [Option.map_some']
        rw [← ih]
        simp [List.take_succ_cons, List.drop_succ_cons]

theorem setWarm_decompose (now sid : Nat) (l1 : List Slot) (x : Slot) (l2 : List Slot)
    (h1 : ∀ y ∈ l1, y.id ≠ sid) (hx : x.id = sid) (h2 : ∀ y ∈ l2, y.id ≠ sid) :
    setWarm now sid (l1 ++ x :: l2)
      = l1 ++ ({ x with state := SlotState.warm, warmAt := some now }) :: l2 := by
  unfold setWarm
  rw [List.map_append, List.map_cons, if_pos hx]
  congr 1
  · rw [List.map_congr_left (g := id) fun y hy => by rw [if_neg (h1 y hy)]; rfl]
    exact List.map_id l1
  · congr 1
    rw [List.map_congr_left (g := id) fun y hy => by rw [if_neg (h2 y hy)]; rfl]
    exact List.map_id l2

theorem setActive_decompose (now sid : Nat) (l1 : List Slot) (x : Slot) (l2 : List Slot)
    (h1 : ∀ y ∈ l1, y.id ≠ sid) (hx : x.id = sid) (h2 : ∀ y ∈ l2, y.id ≠ sid) :
    setActive now sid (l1 ++ x :: l2)
      = l1 ++ ({ x with state := SlotState.active, acquiredAt := some now }) :: l2 := by
  unfold setActive
  rw [List.map_append, List.map_cons, if_pos hx]
  congr 1
  · rw [List.map_congr_left (g := id) fun y hy => by rw [if_neg (h1 y hy)]; rfl]
    exact List.map_id l1
  · congr 1
    rw [List.map_congr_left (g := id) fun y hy => by rw [if_neg (h2 y hy)]; rfl]
    exact List.map_id l2

theorem serveGo_noWarm (now : Nat) (s : PoolState) (h : NoWarmSlots s) :
    ∀ ws : List Nat, serveGo now ws s = { s with waiters := ws } := by
  intro ws
  cases ws with
  | nil => rfl
  | cons w rest =>
    show serveGo now (w :: rest) s = _
    unfold serveGo
    have hfind : findWarmSlot s now = ({ s with slots := s.slots }, none) := by
      unfold findWarmSlot
      rw [findWarmLoop_noWarm s.maxWarmAgeMs now s.slots none h]
    rw [hfind]

theorem find?_id_first (sid : Nat) :
    ∀ (l1 : List Slot) (x : Slot) (l2 : List Slot),
      (∀ y ∈ l1, y.id ≠ sid) → x.id = sid →
      ((l1 ++ x :: l2).find? fun sl => sl.id = sid) = some x := by
  intro l1
  induction l1 with
  | nil =>
    intro x l2 _ hx
    simp [List.find?, hx]
  | cons a rest ih =>
    intro x l2 h1 hx
    have ha : ¬a.id = sid := h1 a (List.mem_cons_self _ _)
    simp only [List.cons_append, List.find?]
    rw [show (decide (a.id = sid)) = false by simp [ha]]
    exact ih x l2 (fun y hy => h1 y (List.mem_cons_of_mem _ hy)) hx

theorem find?_id_map_runner (q : Nat) :
    ∀ (l1 : List Slot) (a b : Slot) (l2 : List Slot),
      a.id = b.id → a.runner = b.runner →
      (((l1 ++ a :: l2).find? fun sl => sl.id = q).map Slot.runner)
        = (((l1 ++ b :: l2).find? fun sl => sl.id = q).map Slot.runner) := by
  intro l1
  induction l1 with
  | nil =>
    intro a b l2 hid hrun
    simp only [List.nil_append, List.find?]
    rw [hid]
    cases hq : decide (b.id = q) with
    | false => simp
    | true => simp [hrun]
  | cons c rest ih =>
    intro a b l2 hid hrun
    simp only [List.cons_append, List.find?]
    cases hq : decide (c.id = q) with
    | false => exact ih a b l2 hid hrun
    | true => simp

/-- Completion of one boot in a pool with no warm slot, a waiter at the head
of the queue and unique slot ids: the freshly warmed slot is immediately
checked out to the first waiter, leaving again a pool with no warm slot. -/
theorem bootSuccess_serves_head (s : PoolState) (sid now w : Nat) (ws : List Nat)
    (l1 : List Slot) (x : Slot) (l2 : List Slot)
    (hW : s.waiters = w :: ws)
    (hNW : NoWarmSlots s)
    (hstop : s.stopping = false)
    (hdec : s.slots = l1 ++ x :: l2)
    (h1 : ∀ y ∈ l1, y.id ≠ sid) (hxid : x.id = sid) (h2 : ∀ y ∈ l2, y.id ≠ sid)
    (hxb : x.state = SlotState.booting) :
    bootSuccess s sid now =
      { s with
        slots := l1 ++ ({ x with state := SlotState.active, warmAt := some now, acquiredAt := some now }) :: l2
        waiters := ws
        emitted := s.emitted ++ [x.runner]
        served := s.served ++ [(w, x.runner)] } := by
  have hxm : x ∈ s.slots := by rw [hdec]; exact List.mem_append_right _ (List.mem_cons_self _ _)
  have hany : (s.slots.any fun sl => sl.id = sid && sl.state = SlotState.booting) = true := by
    rw [List.any_eq_true]
    exact ⟨x, hxm, by simp [hxid, hxb]⟩
  have hl1nw : ∀ y ∈ l1, y.state ≠ SlotState.warm := by
    intro y hy
    exact hNW y (by rw [hdec]; exact List.mem_append_left _ hy)
  have hl2nw : ∀ y ∈ l2, y.state ≠ SlotState.warm := by
    intro y hy
    exact hNW y (by rw [hdec]; exact List.mem_append_right _ (List.mem_cons_of_mem _ hy))
  set x' : Slot := { x with state := SlotState.warm, warmAt := some now } with hx'
  set a' : Slot := { x' with state := SlotState.active, acquiredAt := some now } with ha'
  have hsw : setWarm now sid s.slots = l1 ++ x' :: l2 := by
    rw [hdec]; exact setWarm_decompose now sid l1 x l2 h1 hxid h2
  have hone : findWarmLoop s.maxWarmAgeMs now (l1 ++ x' :: l2) none
      = (l1 ++ x' :: l2, some x') := by
    apply findWarmLoop_oneWarm s.maxWarmAgeMs now l1 x' l2 hl1nw hl2nw rfl
    exact isStale_fresh s.maxWarmAgeMs now x' rfl
  have hsa : setActive now x'.id (l1 ++ x' :: l2) = l1 ++ a' :: l2 :=
    setActive_decompose now x'.id l1 x' l2
      (by intro y hy; show y.id ≠ x'.id; rw [show x'.id = sid from hxid]; exact h1 y hy)
      rfl
      (by intro y hy; show y.id ≠ x'.id; rw [show x'.id = sid from hxid]; exact h2 y hy)
  have hnw2 : NoWarmSlots
      { s with
        slots := l1 ++ a' :: l2
        waiters := w :: ws
        emitted := s.emitted ++ [x'.runner]
        served := s.served ++ [(w, x'.runner)] } := by
    intro y hy
    simp only at hy
    rcases List.mem_append.mp hy with hy1 | hy2
    · exact hl1nw y hy1
    · rcases List.mem_cons.mp hy2 with hyx | hy3
      · rw [hyx]; intro hc; cases hc
      · exact hl2nw y hy3
  unfold bootSuccess
  rw [hany, if_pos rfl, if_neg (by simp [hstop])]
  unfold serveWaiters
  simp only []
  rw [hW, hsw]
  have e2 : findWarmSlot { s with slots := l1 ++ x' :: l2, waiters := w :: ws } now
      = ({ s with slots := l1 ++ x' :: l2, waiters := w :: ws }, some x') := by
    unfold findWarmSlot
    simp only []
    rw [hone]
  simp only [serveGo]
  rw [e2]
  simp only [checkout]
  rw [hsa]
  exact (serveGo_noWarm now _ hnw2 ws).trans rfl

/-- The FIFO scenario: from a pool with no warm slot, pending waiters and a
set of booting slots with distinct ids, warming the slots one at a time
serves the waiters strictly in queue order, pairing the `i`-th warming with
the `i`-th waiter. -/
theorem fifo_scenario :
    ∀ (warmings : List (Nat × Nat)) (s : PoolState),
      NoWarmSlots s →
      (s.slots.map Slot.id).Nodup →
      s.stopping = false →
      (∀ p ∈ warmings, ∃ sl ∈ s.slots, sl.id = p.1 ∧ sl.state = SlotState.booting) →
      (warmings.map Prod.fst).Nodup →
      warmings.length ≤ s.waiters.length →
      (runEvents s (warmingEvents warmings)).served
        = s.served ++ (s.waiters.zip (warmings.map fun p => runnerOfSlot s p.1))
      ∧ (runEvents s (warmingEvents warmings)).waiters
        = s.waiters.drop warmings.length := by
  intro warmings
  induction warmings with
  | nil =>
    intro s _ _ _ _ _ _
    constructor
    · simp [runEvents, warmingEvents]
    · simp [runEvents, warmingEvents]
  | cons p rest ih =>
    intro s hNW hIds hstop hslots hfst hlen
    rcases hslots p (List.mem_cons_self _ _) with ⟨x, hxm, hxid, hxb⟩
    rcases List.append_of_mem hxm with ⟨l1, l2, hdec⟩
    have hidm := hIds
    rw [hdec, List.map_append, List.map_cons] at hidm
    rcases List.nodup_append.mp hidm with ⟨hn1, hn2, hdisj⟩
    have hxnotl2 : x.id ∉ l2.map Slot.id := (List.nodup_cons.mp hn2).1
    have h1 : ∀ y ∈ l1, y.id ≠ p.1 := by
      intro y hy hc
      exact hdisj (List.mem_map_of_mem Slot.id hy) (by rw [hc, ← hxid]; exact List.mem_cons_self _ _)
    have h2 : ∀ y ∈ l2, y.id ≠ p.1 := by
      intro y hy hc
      exact hxnotl2 (by rw [hxid, ← hc]; exact List.mem_map_of_mem Slot.id hy)
    cases hwq : s.waiters with
    | nil =>
      exfalso
      rw [hwq] at hlen
      simp at hlen
    | cons w ws' =>
      have hstep := bootSuccess_serves_head s p.1 p.2 w ws' l1 x l2 hwq hNW hstop hdec
        h1 hxid h2 hxb
      have hrun : runEvents s (warmingEvents (p :: rest))
          = runEvents (bootSuccess s p.1 p.2) (warmingEvents rest) := rfl
      set a' : Slot :=
        { x with state := SlotState.active, warmAt := some p.2, acquiredAt := some p.2 } with ha'
      set s' : PoolState :=
        { s with
          slots := l1 ++ a' :: l2
          waiters := ws'
          emitted := s.emitted ++ [x.runner]
          served := s.served ++ [(w, x.runner)] } with hs'
      have hNW' : NoWarmSlots s' := by
        intro y hy
        simp only [hs'] at hy
        rcases List.mem_append.mp hy with hy1 | hy2
        · exact hNW y (by rw [hdec]; exact List.mem_append_left _ hy1)
        · rcases List.mem_cons.mp hy2 with hyx | hy3
          · rw [hyx]; intro hc; cases hc
          · exact hNW y
              (by rw [hdec]; exact List.mem_append_right _ (List.mem_cons_of_mem _ hy3))
      have hIds' : (s'.slots.map Slot.id).Nodup := by
        show ((l1 ++ a' :: l2).map Slot.id).Nodup
        rw [List.map_append, List.map_cons]
        rw [show a'.id = x.id from rfl]
        rw [← List.map_cons, ← List.map_append, ← hdec]
        exact hIds
      have hstop' : s'.stopping = false := hstop
      have hslots' : ∀ q ∈ rest, ∃ sl ∈ s'.slots, sl.id = q.1 ∧ sl.state = SlotState.booting := by
        intro q hq
        rcases hslots q (List.mem_cons_of_mem _ hq) with ⟨sl, hslm, hslid, hslb⟩
        have hq1 : q.1 ≠ p.1 := by
          intro hc
          have := (List.nodup_cons.mp hfst).1
          exact this (hc ▸ List.mem_map_of_mem Prod.fst hq)
        rw [hdec] at hslm
        rcases List.mem_append.mp hslm with hm1 | hm2
        · exact ⟨sl, by show sl ∈ l1 ++ a' :: l2; exact List.mem_append_left _ hm1, hslid, hslb⟩
        · rcases List.mem_cons.mp hm2 with hmx | hm3
          · exfalso
            rw [hmx] at hslid
            rw [hxid] at hslid
            exact hq1 hslid.symm
          · exact ⟨sl, by
              show sl ∈ l1 ++ a' :: l2
              exact List.mem_append_right _ (List.mem_cons_of_mem _ hm3), hslid, hslb⟩
      have hfst' : (rest.map Prod.fst).Nodup := (List.nodup_cons.mp hfst).2
      have hlen' : rest.length ≤ s'.waiters.length := by
        show rest.length ≤ ws'.length
        rw [hwq] at hlen
        simpa using hlen
      rcases ih s' hNW' hIds' hstop' hslots' hfst' hlen' with ⟨hserved, hwaiters⟩
      have hrunnerEq : ∀ q : Nat × Nat, runnerOfSlot s' q.1 = runnerOfSlot s q.1 := by
        intro q
        unfold runnerOfSlot
        rw [hdec]
        show ((((l1 ++ a' :: l2).find? fun sl => sl.id = q.1).map Slot.runner).getD 0)
          = ((((l1 ++ x :: l2).find? fun sl => sl.id = q.1).map Slot.runner).getD 0)
        rw [find?_id_map_runner q.1 l1 a' x l2 rfl rfl]
      have hrunnerP : runnerOfSlot s p.1 = x.runner := by
        unfold runnerOfSlot
        rw [hdec, find?_id_first p.1 l1 x l2 h1 hxid]
        rfl
      constructor
      · rw [hrun, hstep, hserved]
        rw [List.map_congr_left fun q _ => hrunnerEq q]
        show (s.served ++ [(w, x.runner)]) ++ ws'.zip (rest.map fun q => runnerOfSlot s q.1)
          = s.served ++ ((w :: ws').zip ((p :: rest).map fun q => runnerOfSlot s q.1))
        rw [List.map_cons, hrunnerP, List.zip_cons_cons, List.append_assoc]
        rfl
      · rw [hrun, hstep, hwaiters]
        show ws'.drop rest.length = (w :: ws').drop (p :: rest).length
        simp

end WarmPool

/-! ### FIFO fairness of waiters (claim C5) -/

/-- C5: waiters blocked in `acquire()` are served strictly in enqueue order
— if the queue holds waiters `w₁, …` (no warm slot being available) and `N`
booting slots subsequently warm one at a time, the `i`-th slot to warm
satisfies the `i`-th enqueued waiter (the `served` log pairs the waiters
with the warmed slots' runners in queue order, and the waiters still queued
are exactly the remaining ones, in order) — and a waiter whose individual
timeout expires is removed from the queue (`splice` of its index, i.e.
`List.erase`) without disturbing the order of the remaining waiters (the
new queue is a sublist of the old one). -/
theorem c5_fifo_fairness :
    (∀ (ws : List Nat) (wid : Nat),
      WarmPool.removeWaiter ws wid = ws.erase wid
      ∧ (WarmPool.removeWaiter ws wid).Sublist ws)
    ∧ ∀ (s : WarmPool.PoolState) (warmings : List (Nat × Nat)),
      WarmPool.NoWarmSlots s →
      (s.slots.map WarmPool.Slot.id).Nodup →
      s.stopping = false →
      (∀ p ∈ warmings, ∃ sl ∈ s.slots, sl.id = p.1 ∧ sl.state = WarmPool.SlotState.booting) →
      (warmings.map Prod.fst).Nodup →
      warmings.length ≤ s.waiters.length →
      (WarmPool.runEvents s (WarmPool.warmingEvents warmings)).served
        = s.served ++ (s.waiters.zip (warmings.map fun p => WarmPool.runnerOfSlot s p.1))
      ∧ (WarmPool.runEvents s (WarmPool.warmingEvents warmings)).waiters
        = s.waiters.drop warmings.length := by
  constructor
  · intro ws wid
    refine ⟨WarmPool.removeWaiter_eq_erase ws wid, ?_⟩
    rw [WarmPool.removeWaiter_eq_erase ws wid]
    exact List.erase_sublist wid ws
  · intro s warmings hNW hIds hstop hslots hfst hlen
    exact WarmPool.fifo_scenario warmings s hNW hIds hstop hslots hfst hlen

/-- Witness for C5: two booting slots (runners 10 and 11) and two waiters
(100 and 101); warming slot 1 then slot 2 serves waiter 100 with runner 10
and waiter 101 with runner 11, in that order. -/
theorem c5_fifo_fairness_witness :
    (WarmPool.removeWaiter [100, 101] 100 = ([100, 101] : List Nat).erase 100
      ∧ (WarmPool.removeWaiter [100, 101] 100).Sublist [100, 101])
    ∧ ((WarmPool.runEvents WarmPool.exFifoPool
          (WarmPool.warmingEvents [(1, 5), (2, 6)])).served
        = WarmPool.exFifoPool.served
          ++ (WarmPool.exFifoPool.waiters.zip
              ([(1, 5), (2, 6)].map fun p => WarmPool.runnerOfSlot WarmPool.exFifoPool p.1))
      ∧ (WarmPool.runEvents WarmPool.exFifoPool
          (WarmPool.warmingEvents [(1, 5), (2, 6)])).waiters
        = WarmPool.exFifoPool.waiters.drop ([(1, 5), (2, 6)] : List (Nat × Nat)).length) :=
  ⟨c5_fifo_fairness.1 [100, 101] 100,
   c5_fifo_fairness.2 WarmPool.exFifoPool [(1, 5), (2, 6)]
     (by show ∀ sl ∈ WarmPool.exFifoPool.slots, sl.state ≠ WarmPool.SlotState.warm
         decide)
     (by decide) (by decide) (by decide) (by decide) (by decide)⟩

/-! ### No recycling (claim C1) -/

/-- C1: for every sequence of pool operations starting from a freshly
constructed pool, no two `acquire()` calls ever return the same runner: the
`emitted` log — which records every runner handed out by `_checkout`,
whether via an immediate acquire or via a waiter resolution — never contains
a duplicate.  This rests on release marking the owning slot dead and
deleting it from the registry, a dead slot never re-entering any state, and
`_checkout` selecting only slots currently in the warm state. -/
theorem c1_no_recycling (opts : WarmPool.PoolOpts) (es : List WarmPool.Event) :
    (WarmPool.runEvents (WarmPool.new opts) es).emitted.Nodup :=
  (WarmPool.recycleInv_runEvents es (WarmPool.recycleInv_new opts)).emittedNodup

/-! ### Pool hard cap (claim C2) -/

/-- C2: at every observation point of a `WarmPool` — i.e. after any
interleaving of start, stop, acquire, waiter timeout, release, stale
eviction, refill and boot completion/failure events, including control-server
resizes — the slot counts reported by `stats()` satisfy
`warm + booting + active ≤ maxSize`; moreover every refill registers at most
`min(targetSize − warm − booting, maxSize − total)` new booting slots. -/
theorem c2_pool_hard_cap :
    (∀ (opts : WarmPool.PoolOpts) (es : List WarmPool.Event),
      ((WarmPool.stats (WarmPool.runEvents (WarmPool.new opts) es)).warm
        + (WarmPool.stats (WarmPool.runEvents (WarmPool.new opts) es)).booting
        + (WarmPool.stats (WarmPool.runEvents (WarmPool.new opts) es)).active : Int)
        ≤ (WarmPool.stats (WarmPool.runEvents (WarmPool.new opts) es)).maxSize)
    ∧ ∀ (s : WarmPool.PoolState) (now : Nat),
      ((WarmPool.refill s now).slots.length : Int)
        ≤ (s.slots.length : Int)
          + max 0 (min (s.targetSize - ((WarmPool.stats s).warm : Int)
                - ((WarmPool.stats s).booting : Int))
              (s.maxSize - ((WarmPool.stats s).total : Int))) := by
  constructor
  · intro opts es
    have hinv := WarmPool.capInv_runEvents es (WarmPool.capInv_new opts)
    set s := WarmPool.runEvents (WarmPool.new opts) es with hs
    have hsum := WarmPool.filter_states_length_le s.slots
    have hlen := hinv.lenLe
    have hmax : (WarmPool.stats s).maxSize = s.maxSize := rfl
    rw [hmax]
    show (((s.slots.filter fun sl => sl.state = WarmPool.SlotState.warm).length
      + (s.slots.filter fun sl => sl.state = WarmPool.SlotState.booting).length
      + (s.slots.filter fun sl => sl.state = WarmPool.SlotState.active).length : Nat) : Int)
      ≤ s.maxSize
    push_cast
    push_cast at hlen
    omega
  · intro s now
    rcases WarmPool.refill_spec s now with ⟨heq, _⟩ | ⟨k, hk, _, heq⟩
    · rw [heq]
      have : (0 : Int) ≤ max 0 (min (s.targetSize - ((WarmPool.stats s).warm : Int)
          - ((WarmPool.stats s).booting : Int))
          (s.maxSize - ((WarmPool.stats s).total : Int))) := le_max_left _ _
      omega
    · rw [heq]
      show ((s.slots ++ WarmPool.mkSlots now s.slotCounter s.runnerCounter k).length : Int) ≤ _
      rw [List.length_append, WarmPool.mkSlots_length]
      have hle : (k : Int) ≤ max 0 (min (s.targetSize - ((WarmPool.stats s).warm : Int)
          - ((WarmPool.stats s).booting : Int))
          (s.maxSize - ((WarmPool.stats s).total : Int))) := by
        rw [hk]
        exact le_max_right _ _
      push_cast
      omega

/-! ### Port allocation (claim C8) -/

/-- Helper: the `k`-th port allocated from counter value `c`. -/
theorem Runner.allocSeq_getElem (n c k : Nat) (h : k < n) :
    (Runner.allocSeq c n)[k]? = some (Runner.DEFAULT_SSH_PORT_BASE + (c + k) % 100) := by
  induction n generalizing c k with
  | zero => omega
  | succ m ih =>
    cases k with
    | zero => simp [Runner.allocSeq, Runner.allocPort]
    | succ k' =>
      have hk : k' < m := by omega
      have := ih (c + 1) k' hk
      simpa [Runner.allocSeq, Runner.allocPort, Nat.add_assoc, Nat.add_comm 1 k',
        Nat.add_left_comm] using this

/-- C8: ports come from a process-scoped monotonically increasing counter:
the `k`-th runner constructed in a process (0-indexed here, so the claim's
`k`-th runner is index `k − 1`) gets port `12200 + k % 100`, and any runners
whose construction indices lie within 100 consecutive allocations — in
particular the first 100 runners of the process — receive pairwise distinct
ports. -/
theorem c8_port_allocation (n k i j : Nat) :
    (k < n → (Runner.allocSeq 0 n)[k]? = some (12200 + k % 100))
    ∧ (i < j → j < n → j - i < 100 →
        (Runner.allocSeq 0 n)[i]? ≠ (Runner.allocSeq 0 n)[j]?) := by
  constructor
  · intro h
    simpa [Runner.DEFAULT_SSH_PORT_BASE] using Runner.allocSeq_getElem n 0 k h
  · intro hij hjn hwin
    have hi := Runner.allocSeq_getElem n 0 i (by omega)
    have hj := Runner.allocSeq_getElem n 0 j hjn
    rw [hi, hj]
    intro hEq
    have : Runner.DEFAULT_SSH_PORT_BASE + (0 + i) % 100
        = Runner.DEFAULT_SSH_PORT_BASE + (0 + j) % 100 := by
      exact Option.some.inj hEq
    omega

/-- Witness for C8 at `n = 2`, `k = 1`, `i = 0`, `j = 1`. -/
theorem c8_port_allocation_witness :
    ((1 : Nat) < 2 ∧ (Runner.allocSeq 0 2)[1]? = some (12200 + 1 % 100))
    ∧ ((Runner.allocSeq 0 2)[0]? ≠ (Runner.allocSeq 0 2)[1]?) :=
  ⟨⟨by decide, (c8_port_allocation 2 1 0 1).1 (by decide)⟩,
   (c8_port_allocation 2 1 0 1).2 (by decide) (by decide) (by decide)⟩

/-! ### Transport semantics of `run` (claim C3) -/

/-- C3 counterexample: the claim says `run` rejects on expiry of the
per-call timeout, but Node's `spawn` timeout kills the child, which then
emits `close` with `code = null` and no `error` event, so `sshExec` — and
with it `run` — resolves normally with a `null` exit code. -/
theorem c3_counterexample :
    Runner.run true (Runner.SpawnOutcome.timedOut "" "") 0 =
      Except.ok { stdout := "".trim, stderr := "".trim, code := none, duration := 0 }
    ∧ (Runner.run true (Runner.SpawnOutcome.timedOut "" "") 0).isOk = true := by
  constructor <;> rfl

/-- C3 (amended): for a booted runner, `run` resolves normally with
`{stdout, stderr, code, duration}` whenever the remote command itself
completes, including every non-zero exit code; it rejects exactly on a
remote-shell subprocess error; on expiry of the per-call timeout
(`opts.timeout` seconds, defaulting to the runner's configured task
timeout) the subprocess is killed and `run` resolves normally with exit
code `null` instead of rejecting. -/
theorem c3_run_transport (out err : String) (c : Int) (d t task : Nat) :
    Runner.run true (Runner.SpawnOutcome.exited c out err) d =
      Except.ok { stdout := out.trim, stderr := err.trim, code := some c, duration := d }
    ∧ Runner.run true (Runner.SpawnOutcome.timedOut out err) d =
      Except.ok { stdout := out.trim, stderr := err.trim, code := none, duration := d }
    ∧ Runner.run true Runner.SpawnOutcome.error d = Except.error "spawn error"
    ∧ Runner.runTimeoutMs (t + 1) task = (t + 1) * 1000
    ∧ Runner.runTimeoutMs 0 task = task := by
  refine ⟨rfl, rfl, rfl, ?_, rfl⟩
  simp [Runner.runTimeoutMs]

/-! ### Idempotent shutdown (claim C9) -/

/-- C9: `runner.shutdown()` never throws and is idempotent — a second call
completes normally and changes nothing further (the hypervisor child handle
is already cleared and the work directory already removed) — and
`pool.stop()` is likewise idempotent: a second call returns at once. -/
theorem c9_idempotent_shutdown :
    (∀ (env : Runner.ShutdownEnv) (keep : Bool) (r : Runner.RunnerState),
      ∃ r', Runner.shutdown env keep r = Except.ok r'
        ∧ Runner.shutdown env keep r' = Except.ok r')
    ∧ ∀ s : WarmPool.PoolState, WarmPool.stop (WarmPool.stop s) = WarmPool.stop s := by
  constructor
  · intro env keep r
    rcases env with ⟨e1, e2, e3, e4⟩
    rcases r with ⟨q, bo, w, lg⟩
    cases keep <;> cases q <;> cases w <;> cases e3 <;> cases e4 <;>
      exact ⟨_, rfl, rfl⟩
  · intro s
    by_cases h : s.stopping
    · simp [WarmPool.stop, h]
    · simp [WarmPool.stop, h]

/-! ### Request-body size cap (claim C4) -/

/-- C4 counterexample: a body one byte over the 1 MiB cap is rejected by
`parseBody` with the payload-too-large error, but `_handleAcquire` answers
it with HTTP 400 (every `parseBody` rejection is mapped to 400), not 413. -/
theorem c4_counterexample :
    ControlServer.parseBody { length := 1024 * 1024 + 1, validJSON := true } =
      Except.error ControlServer.BodyError.tooLarge
    ∧ ControlServer.handleAcquireStatus { length := 1024 * 1024 + 1, validJSON := true }
        (Except.ok ()) = 400
    ∧ (400 : Nat) ≠ 413 := by
  refine ⟨rfl, rfl, by decide⟩

/-- C4 (amended): every POST body exceeding 1 MiB is rejected with the
payload-too-large error, and the server answers it with HTTP 400 — the
status it uses for all body-parse failures; no route ever produces 413. -/
theorem c4_payload_too_large (b : ControlServer.ReqBody) (ar : Except String Unit)
    (h : b.length > ControlServer.MAX_BODY_BYTES) :
    ControlServer.parseBody b = Except.error ControlServer.BodyError.tooLarge
    ∧ ControlServer.handleAcquireStatus b ar = 400 := by
  have h' : ControlServer.parseBody b = Except.error ControlServer.BodyError.tooLarge := by
    simp [ControlServer.parseBody, h]
  exact ⟨h', by simp [ControlServer.handleAcquireStatus, h']⟩

/-- Witness for C4 at the smallest oversized body. -/
theorem c4_payload_too_large_witness :
    ((1024 * 1024 + 1 : Nat) > ControlServer.MAX_BODY_BYTES)
    ∧ ControlServer.parseBody { length := 1024 * 1024 + 1, validJSON := true } =
        Except.error ControlServer.BodyError.tooLarge
    ∧ ControlServer.handleAcquireStatus { length := 1024 * 1024 + 1, validJSON := true }
        (Except.ok ()) = 400 :=
  ⟨by decide,
   (c4_payload_too_large { length := 1024 * 1024 + 1, validJSON := true }
      (Except.ok ()) (by decide)).1,
   (c4_payload_too_large { length := 1024 * 1024 + 1, validJSON := true }
      (Except.ok ()) (by decide)).2⟩

/-! ### Constructor clamping vs. unclamped resize (claim C10) -/

/-- C10: the `WarmPool` constructor clamps its configuration —
`targetSize = max(1, requested)` (a requested size of 0 becomes 1) and
`maxSize = max(targetSize, requested maxSize)`, so `targetSize ≤ maxSize`
at construction — whereas the control server's `/pool/resize` handler
assigns any validated size 0–16 directly to `targetSize` with no clamp
(in particular size 0 sticks). -/
theorem c10_clamped_construction_unclamped_resize (opts : WarmPool.PoolOpts) (n : Int)
    (h0 : 0 ≤ n) (h16 : n ≤ 16) :
    1 ≤ (WarmPool.new opts).targetSize
    ∧ (WarmPool.new opts).targetSize ≤ (WarmPool.new opts).maxSize
    ∧ (WarmPool.new opts).targetSize = max 1 (opts.size.getD 2)
    ∧ (WarmPool.new opts).maxSize = max ((WarmPool.new opts).targetSize) (opts.maxSize.getD 8)
    ∧ (WarmPool.new { opts with size := some 0 }).targetSize = 1
    ∧ ControlServer.handlePoolResize { length := 9, validJSON := true } (some n)
        (WarmPool.new opts)
      = (200, { WarmPool.new opts with targetSize := n }) := by
  refine ⟨le_max_left _ _, le_max_left _ _, rfl, rfl, rfl, ?_⟩
  have hcond : ¬(n < 0 ∨ n > 16) := by omega
  simp [ControlServer.handlePoolResize, ControlServer.parseBody,
    ControlServer.MAX_BODY_BYTES, hcond]

/-! ### ISO 9660 layout of the seed image (claim C6) -/

/-- C6 counterexample: the claim quantifies over every file list, but
`DATA_START_SECTOR` is hard-coded to 21 while the root directory grows with
the file count; with 55 files the root directory spills over into sector 21
(it needs two sectors), so the bytes from sector 21 onward are *not* the
padded file contents — while the directory records still claim extents from
sector 21, corrupting the image. -/
theorem c6_counterexample :
    (SeedISO.buildISO SeedISO.cexFiles "cidata" SeedISO.cexDate).drop (21 * 2048)
      ≠ (SeedISO.cexFiles.map fun f => SeedISO.padToSector f.content).flatten := by
  intro hcontra
  have hlen := congrArg List.length hcontra
  rw [List.length_drop] at hlen
  have hroot : (SeedISO.rootDirectory SeedISO.cexFiles SeedISO.cexDate).length = 2158 := by
    rw [SeedISO.rootDirectory_length]
    show 68 + ((List.replicate 55
        ({ name := "f", isoName := "AB.;1", content := [120] } : SeedISO.ISOFile)).map
          fun f =>
            if (33 + (SeedISO.asciiOf f.isoName).length) % 2 ≠ 0
            then 33 + (SeedISO.asciiOf f.isoName).length + 1
            else 33 + (SeedISO.asciiOf f.isoName).length).sum = 2158
    rw [List.map_replicate]
    rw [show (if (33 + (SeedISO.asciiOf "AB.;1").length) % 2 ≠ 0
        then 33 + (SeedISO.asciiOf "AB.;1").length + 1
        else 33 + (SeedISO.asciiOf "AB.;1").length) = 38 from by decide]
    simp [List.sum_replicate]
  have hpadroot :
      (SeedISO.padToSector (SeedISO.rootDirectory SeedISO.cexFiles SeedISO.cexDate)).length
        = 4096 := by
    rw [SeedISO.padToSector_length, hroot]
    norm_num
  have hD : ((SeedISO.cexFiles.map fun f => SeedISO.padToSector f.content).flatten).length
      = 55 * 2048 := by
    rw [SeedISO.data_length]
    show ((List.replicate 55
        ({ name := "f", isoName := "AB.;1", content := [120] } : SeedISO.ISOFile)).map
          fun f => SeedISO.sectorsOf f.content).sum * 2048 = 55 * 2048
    rw [List.map_replicate]
    rw [show SeedISO.sectorsOf
        ({ name := "f", isoName := "AB.;1", content := [120] } : SeedISO.ISOFile).content
        = 1 from by decide]
    simp [List.sum_replicate]
  have hiso : (SeedISO.buildISO SeedISO.cexFiles "cidata" SeedISO.cexDate).length
      = 32768 + 2048 + 2048 + 2048 + 2048 + 4096 + 55 * 2048 := by
    simp only [SeedISO.buildISO, List.length_append]
    rw [SeedISO.padded_contents]
    rw [List.length_replicate, SeedISO.makePVD_length, SeedISO.vdst_length,
      SeedISO.padded_ptL_length, SeedISO.padded_ptM_length, hpadroot, hD]
    norm_num [SeedISO.SECTOR_SIZE]
  rw [hiso, hD] at hlen
  omega

/-- C6 (amended): for every file list whose root directory (the two special
entries plus one record per file) fits in one 2,048-byte sector — as it
does for the two-file cloud-init seeds this program builds — `buildISO`
produces a byte-exact ISO 9660 image with 2,048-byte sectors: the image is
`totalSectors × 2048` bytes; sectors 0–15 are all zero; the primary volume
descriptor is at sector 16 with `CD001` at bytes 1–5 and the volume
identifier region (bytes 40–71) equal to `CIDATA` space-padded to 32 bytes;
the volume-descriptor-set terminator is at sector 17; the little-endian
path table at sector 18; the big-endian path table at sector 19; the root
directory at sector 20; and the padded file data occupies the image from
sector 21 onward, in order.  (Without the root-directory bound the last
part fails — see the counterexample.) -/
theorem c6_iso_layout (files : List SeedISO.ISOFile) (d : SeedISO.JSDate)
    (hroot : (SeedISO.rootDirectory files d).length ≤ 2048) :
    (SeedISO.buildISO files "cidata" d).length = SeedISO.totalSectorsOf files * 2048
    ∧ (SeedISO.buildISO files "cidata" d).take (16 * 2048) = List.replicate (16 * 2048) 0
    ∧ SeedISO.extract (SeedISO.buildISO files "cidata" d) (16 * 2048 + 1) 5
        = SeedISO.asciiOf "CD001"
    ∧ SeedISO.extract (SeedISO.buildISO files "cidata" d) (16 * 2048 + 40) 32
        = SeedISO.asciiOf "CIDATA" ++ List.replicate 26 0x20
    ∧ SeedISO.extract (SeedISO.buildISO files "cidata" d) (17 * 2048) 2048 = SeedISO.vdst
    ∧ SeedISO.extract (SeedISO.buildISO files "cidata" d) (18 * 2048) 2048
        = SeedISO.padToSector SeedISO.ptL
    ∧ SeedISO.extract (SeedISO.buildISO files "cidata" d) (19 * 2048) 2048
        = SeedISO.padToSector SeedISO.ptM
    ∧ SeedISO.extract (SeedISO.buildISO files "cidata" d) (20 * 2048) 2048
        = SeedISO.padToSector (SeedISO.rootDirectory files d)
    ∧ (SeedISO.buildISO files "cidata" d).drop (21 * 2048)
        = (files.map fun f => SeedISO.padToSector f.content).flatten := by
  have hR := SeedISO.padded_root_length files d hroot
  have hiso : SeedISO.buildISO files "cidata" d
      = List.replicate (16 * SeedISO.SECTOR_SIZE) 0
        ++ (SeedISO.makePVD "cidata" (SeedISO.totalSectorsOf files)
              (SeedISO.padToSector (SeedISO.rootDirectory files d)).length d
        ++ (SeedISO.vdst
        ++ (SeedISO.padToSector SeedISO.ptL
        ++ (SeedISO.padToSector SeedISO.ptM
        ++ (SeedISO.padToSector (SeedISO.rootDirectory files d)
        ++ ((SeedISO.layout SeedISO.DATA_START_SECTOR files).map fun p =>
              SeedISO.padToSector p.1.content).flatten))))) := by
    simp only [SeedISO.buildISO, List.append_assoc]
  refine ⟨?_, ?_, ?_, ?_, ?_, ?_, ?_, ?_, ?_⟩
  · simp only [SeedISO.buildISO, List.length_append]
    rw [SeedISO.padded_contents, SeedISO.data_length]
    rw [List.length_replicate, SeedISO.makePVD_length, SeedISO.vdst_length,
      SeedISO.padded_ptL_length, SeedISO.padded_ptM_length, hR]
    unfold SeedISO.totalSectorsOf SeedISO.DATA_START_SECTOR SeedISO.SECTOR_SIZE
    have : (files.map fun f => SeedISO.sectorsOf f.content).sum * 2048
        = (files.map fun f => SeedISO.sectorsOf f.content).sum * 2048 := rfl
    omega
  · rw [hiso]
    exact List.take_left' (by rw [List.length_replicate]; norm_num [SeedISO.SECTOR_SIZE])
  · rw [hiso]
    rw [SeedISO.extract_append_offset _ _ 1 (16 * 2048 + 1) 5
      (by rw [List.length_replicate]; norm_num [SeedISO.SECTOR_SIZE])]
    rw [SeedISO.extract_append_left _ _ 1 5 (by rw [SeedISO.makePVD_length]; norm_num)]
    exact SeedISO.makePVD_cd001 "cidata" _ _ d
  · rw [hiso]
    rw [SeedISO.extract_append_offset _ _ 40 (16 * 2048 + 40) 32
      (by rw [List.length_replicate]; norm_num [SeedISO.SECTOR_SIZE])]
    rw [SeedISO.extract_append_left _ _ 40 32 (by rw [SeedISO.makePVD_length]; norm_num)]
    exact SeedISO.makePVD_volid _ _ d
  · rw [hiso]
    rw [SeedISO.extract_append_offset _ _ 2048 (17 * 2048) 2048
      (by rw [List.length_replicate]; norm_num [SeedISO.SECTOR_SIZE])]
    rw [SeedISO.extract_append_offset _ _ 0 2048 2048
      (by rw [SeedISO.makePVD_length])]
    rw [SeedISO.extract_append_left _ _ 0 2048 (by rw [SeedISO.vdst_length])]
    exact SeedISO.extract_eq_self _ _ (by rw [SeedISO.vdst_length])
  · rw [hiso]
    rw [SeedISO.extract_append_offset _ _ (2 * 2048) (18 * 2048) 2048
      (by rw [List.length_replicate]; norm_num [SeedISO.SECTOR_SIZE])]
    rw [SeedISO.extract_append_offset _ _ 2048 (2 * 2048) 2048
      (by rw [SeedISO.makePVD_length])]
    rw [SeedISO.extract_append_offset _ _ 0 2048 2048
      (by rw [SeedISO.vdst_length])]
    rw [SeedISO.extract_append_left _ _ 0 2048 (by rw [SeedISO.padded_ptL_length])]
    exact SeedISO.extract_eq_self _ _ (by rw [SeedISO.padded_ptL_length])
  · rw [hiso]
    rw [SeedISO.extract_append_offset _ _ (3 * 2048) (19 * 2048) 2048
      (by rw [List.length_replicate]; norm_num [SeedISO.SECTOR_SIZE])]
    rw [SeedISO.extract_append_offset _ _ (2 * 2048) (3 * 2048) 2048
      (by rw [SeedISO.makePVD_length])]
    rw [SeedISO.extract_append_offset _ _ 2048 (2 * 2048) 2048
      (by rw [SeedISO.vdst_length])]
    rw [SeedISO.extract_append_offset _ _ 0 2048 2048
      (by rw [SeedISO.padded_ptL_length])]
    rw [SeedISO.extract_append_left _ _ 0 2048 (by rw [SeedISO.padded_ptM_length])]
    exact SeedISO.extract_eq_self _ _ (by rw [SeedISO.padded_ptM_length])
  · rw [hiso]
    rw [SeedISO.extract_append_offset _ _ (4 * 2048) (20 * 2048) 2048
      (by rw [List.length_replicate]; norm_num [SeedISO.SECTOR_SIZE])]
    rw [SeedISO.extract_append_offset _ _ (3 * 2048) (4 * 2048) 2048
      (by rw [SeedISO.makePVD_length])]
    rw [SeedISO.extract_append_offset _ _ (2 * 2048) (3 * 2048) 2048
      (by rw [SeedISO.vdst_length])]
    rw [SeedISO.extract_append_offset _ _ 2048 (2 * 2048) 2048
      (by rw [SeedISO.padded_ptL_length])]
    rw [SeedISO.extract_append_offset _ _ 0 2048 2048
      (by rw [SeedISO.padded_ptM_length])]
    rw [SeedISO.extract_append_left _ _ 0 2048 (by rw [hR])]
    exact SeedISO.extract_eq_self _ _ (by rw [hR])
  · simp only [SeedISO.buildISO]
    rw [SeedISO.drop_append_all _ _ (21 * 2048)
      (by
        rw [List.length_append, List.length_append, List.length_append,
          List.length_append, List.length_append]
        rw [List.length_replicate, SeedISO.makePVD_length, SeedISO.vdst_length,
          SeedISO.padded_ptL_length, SeedISO.padded_ptM_length, hR]
        norm_num [SeedISO.SECTOR_SIZE])]
    rw [SeedISO.padded_contents]

set_option maxRecDepth 8000 in
/-- Witness for C6 at a typical two-file cloud-init seed. -/
theorem c6_iso_layout_witness :
    ((SeedISO.rootDirectory SeedISO.exSeedFiles SeedISO.cexDate).length ≤ 2048)
    ∧ SeedISO.extract (SeedISO.buildISO SeedISO.exSeedFiles "cidata" SeedISO.cexDate)
        (16 * 2048 + 1) 5 = SeedISO.asciiOf "CD001"
    ∧ SeedISO.extract (SeedISO.buildISO SeedISO.exSeedFiles "cidata" SeedISO.cexDate)
        (16 * 2048 + 40) 32 = SeedISO.asciiOf "CIDATA" ++ List.replicate 26 0x20 :=
  ⟨by decide,
   (c6_iso_layout SeedISO.exSeedFiles SeedISO.cexDate (by decide)).2.2.1,
   (c6_iso_layout SeedISO.exSeedFiles SeedISO.cexDate (by decide)).2.2.2.1⟩

/-! ### Seed `user-data` contents (claim C7) -/

/-- C7: for every valid call to `createSeedISO` (public key and output path
supplied), the call succeeds and the `user-data` file handed to `buildISO`
is built from lines that begin with `#cloud-config`, list the supplied
public key under the `ssh_authorized_keys` array, contain
`ssh_pwauth: false`, and contain a `runcmd` section whose first entry
writes the literal token `CARAPACEOS_READY` to `/dev/ttyS0`; every
caller-supplied extra command follows that first entry, in the order
given, quoted with `JSON.stringify`. -/
theorem c7_user_data_layout (key path hostname : String) (iidOpt : Option String)
    (extras : List String) (nowMs : Nat) (d : SeedISO.JSDate)
    (hkey : key ≠ "") (hpath : path ≠ "") :
    (∃ metaContent,
      SeedISO.createSeedISO
          { sshPublicKey := some key, outputPath := some path, hostname := hostname,
            instanceId := iidOpt, runcmd := extras } nowMs d
        = Except.ok (SeedISO.buildISO
            [{ name := "meta-data", isoName := "META-DATA.;1", content := metaContent },
             { name := "user-data", isoName := "USER-DATA.;1",
               content := SeedISO.asciiOf
                 (SeedISO.joinLines (SeedISO.userDataLines key extras)) }]
            "cidata" d))
    ∧ (SeedISO.userDataLines key extras)[0]? = some "#cloud-config"
    ∧ (SeedISO.userDataLines key extras)[1]? = some "ssh_authorized_keys:"
    ∧ (SeedISO.userDataLines key extras)[2]? = some ("  - " ++ key.trim)
    ∧ (SeedISO.userDataLines key extras)[3]? = some "ssh_pwauth: false"
    ∧ (SeedISO.userDataLines key extras)[4]? = some "runcmd:"
    ∧ (SeedISO.userDataLines key extras)[5]? =
        some "  - echo \"CARAPACEOS_READY\" > /dev/ttyS0"
    ∧ ∀ j, (SeedISO.userDataLines key extras)[6 + j]? =
        (extras[j]?).map fun cmd => "  - " ++ SeedISO.jsonQuote cmd := by
  refine ⟨?_, ?_, ?_, ?_, ?_, ?_, ?_, ?_⟩
  · refine ⟨SeedISO.asciiOf (SeedISO.joinLines (SeedISO.metaDataLines
      (match iidOpt with
       | some i => if i = "" then "carapaceos-" ++ toString nowMs else i
       | none => "carapaceos-" ++ toString nowMs) hostname)), ?_⟩
    simp only [SeedISO.createSeedISO, if_neg hkey, if_neg hpath]
  · simp [SeedISO.userDataLines, SeedISO.runcmdLines]
  · simp [SeedISO.userDataLines, SeedISO.runcmdLines]
  · simp [SeedISO.userDataLines, SeedISO.runcmdLines]
  · simp [SeedISO.userDataLines, SeedISO.runcmdLines]
  · simp [SeedISO.userDataLines, SeedISO.runcmdLines]
  · simp [SeedISO.userDataLines, SeedISO.runcmdLines]
  · intro j
    show (SeedISO.userDataLines key extras)[6 + j]? = _
    have hsplit : SeedISO.userDataLines key extras
        = ["#cloud-config", "ssh_authorized_keys:", "  - " ++ key.trim,
           "ssh_pwauth: false", "runcmd:",
           "  - echo \"CARAPACEOS_READY\" > /dev/ttyS0"]
          ++ extras.map (fun cmd => "  - " ++ SeedISO.jsonQuote cmd) := by
      simp [SeedISO.userDataLines, SeedISO.runcmdLines]
    rw [hsplit, List.getElem?_append_right (by simp)]
    simp [List.getElem?_map]

/-- Witness for C7 at a concrete key, path and one extra command. -/
theorem c7_user_data_layout_witness :
    (("ssh-ed25519 AAAA key" : String) ≠ "" ∧ ("/tmp/seed.iso" : String) ≠ "")
    ∧ (SeedISO.userDataLines "ssh-ed25519 AAAA key" ["echo hi"])[5]? =
        some "  - echo \"CARAPACEOS_READY\" > /dev/ttyS0"
    ∧ (SeedISO.userDataLines "ssh-ed25519 AAAA key" ["echo hi"])[6 + 0]? =
        ((["echo hi"] : List String)[0]?).map fun cmd => "  - " ++ SeedISO.jsonQuote cmd :=
  ⟨⟨by decide, by decide⟩,
   (c7_user_data_layout "ssh-ed25519 AAAA key" "/tmp/seed.iso" "carapaceos" none
      ["echo hi"] 0 SeedISO.cexDate (by decide) (by decide)).2.2.2.2.2.2.1,
   (c7_user_data_layout "ssh-ed25519 AAAA key" "/tmp/seed.iso" "carapaceos" none
      ["echo hi"] 0 SeedISO.cexDate (by decide) (by decide)).2.2.2.2.2.2.2 0⟩

/-- Witness for C10 at the default options and the unclamped resize to 0. -/
theorem c10_clamped_construction_unclamped_resize_witness :
    ((0 : Int) ≤ 0 ∧ (0 : Int) ≤ 16)
    ∧ ControlServer.handlePoolResize { length := 9, validJSON := true } (some 0)
        (WarmPool.new { size := none, maxSize := none, maxWarmAgeMs := none })
      = (200, { WarmPool.new { size := none, maxSize := none, maxWarmAgeMs := none } with
                  targetSize := 0 }) :=
  ⟨⟨by decide, by decide⟩,
   (c10_clamped_construction_unclamped_resize
      { size := none, maxSize := none, maxWarmAgeMs := none } 0
      (by decide) (by decide)).2.2.2.2.2⟩

end Carapace
